import Mathlib

/-!
Verification development for the Linux directory-bookmarks plugin
(`src/linux/directory_bookmarks_plugin.cc`).

The plugin keeps an on-disk JSON registry of directory bookmarks and exposes
registry CRUD plus file operations scoped to a bookmarked directory.  This file
is a shallow embedding of that code:

* `JValue` models `nlohmann::json` values.  nlohmann objects are `std::map`s
  ordered by `std::less<std::string>`, i.e. lexicographic byte order; since
  UTF-8 byte order coincides with code-point order, `jobjInsert` keeps the
  association list sorted by the code-point order of the keys and replaces an
  existing key, exactly as `json::operator[]` assignment does.
* `FlValue` models the Flutter `FlValue` tagged union.  Doubles are modelled
  by their IEEE 754 bit pattern (`FloatBits`); the code only moves them
  around, but the persistence boundary is lossy for them: `json::dump` prints
  NaN and infinite doubles as `null`.  `jserialize` is the value-level
  composite of `json::dump` followed by `json::parse` — the identity except
  that every non-finite double becomes `null` — and `load_bookmarks` reads
  the stored document through it: a `StoreFile.stored j` slot stands for a
  file whose text is the dump of `j`, so a save writes its document verbatim
  into the slot and a load parses it back as `jserialize j`.
* The registry file is modelled by `StoreFile`/`Disk`: the main document file
  plus the sibling `.tmp` file.  `SaveEnv` is the I/O environment of one
  `save_bookmarks` call: whether opening the temp file fails, whether the OS
  writes to it fail (an `std::ofstream` reports such failures only through its
  stream state, which `save_bookmarks` never inspects, and `operator<<` does
  not throw), and whether `fs::rename` throws.  A truncated strict prefix of
  `json::dump` output is never valid JSON, so a silently failed write leaves a
  `.malformed` file.
* The external filesystem seen through `stat`/`access`/`std::filesystem` is
  the oracle `ExtFS`.  The byte-level effects of file writes/deletes are not
  tracked (no claim observes them); the `WRITE_ERROR` catch in `save_file` is
  unreachable for default-configured streams and is not modelled.
* C++ code paths that would let an exception escape the method handler
  (`json::get<std::string>` on a non-string, `operator[]` on a wrongly typed
  value) are modelled by `Option`: `none` is an escaped exception.

Each method model mirrors the source function of the same name, including the
order of its argument checks and the exact error codes and messages.
-/

/-- Bit pattern of a C++ `double`; the code only moves doubles around. -/
structure FloatBits where
  bits : Nat
  deriving DecidableEq

/-- Whether the bit pattern encodes a finite double: the 11 exponent bits are
not all ones (all ones encodes an infinity or a NaN). -/
def FloatBits.finite (f : FloatBits) : Bool := !((f.bits / 2 ^ 52) % 2 ^ 11 == 2047)

/-- Model of an `nlohmann::json` value. -/
inductive JValue : Type where
  | jnull
  | jstr (s : String)
  | jint (n : Int)
  | jfloat (f : FloatBits)
  | jbool (b : Bool)
  | jarr (xs : List JValue)
  | jobj (kvs : List (String × JValue))

/-- Lexicographic order on char lists by code point, the order of
`std::less<std::string>` on the UTF-8 bytes. -/
def charListLt : List Char → List Char → Bool
  | [], [] => false
  | [], _ :: _ => true
  | _ :: _, [] => false
  | a :: as, b :: bs =>
    if a.toNat < b.toNat then true
    else if b.toNat < a.toNat then false
    else charListLt as bs

/-- Key order of the `std::map` inside an nlohmann object. -/
def strLt (a b : String) : Bool := charListLt a.data b.data

/-- Lookup in a string-keyed association list (first match). -/
def alookup {α : Type} : List (String × α) → String → Option α
  | [], _ => none
  | kv :: rest, k => if kv.1 == k then some kv.2 else alookup rest k

/-- Insert into the sorted association list of an nlohmann object, replacing an
existing key: the effect of `j[key] = value` on an object. -/
def jobjInsert : List (String × JValue) → String → JValue → List (String × JValue)
  | [], k, v => [(k, v)]
  | kv :: rest, k, v =>
    if strLt k kv.1 then (k, v) :: kv :: rest
    else if k == kv.1 then (k, v) :: rest
    else kv :: jobjInsert rest k v

/-- Model of `json::contains(key)`: false on every non-object value. -/
def jContains (j : JValue) (k : String) : Bool :=
  match j with
  | .jobj kvs => (alookup kvs k).isSome
  | _ => false

/-- Model of reading `j[key]`: on an object a missing key denotes `null`
(`operator[]` inserts and returns null), on `null` the value turns into an
object and null is returned, on any other value `operator[]` throws
`type_error`, modelled as `none`. -/
def jIndex (j : JValue) (k : String) : Option JValue :=
  match j with
  | .jobj kvs => some ((alookup kvs k).getD .jnull)
  | .jnull => some .jnull
  | _ => none

/-- Model of the assignment `j[key] = v`: inserts into an object, turns `null`
into a one-entry object, throws (`none`) on any other value. -/
def jSet (j : JValue) (k : String) (v : JValue) : Option JValue :=
  match j with
  | .jobj kvs => some (.jobj (jobjInsert kvs k v))
  | .jnull => some (.jobj [(k, v)])
  | _ => none

/-- Model of `json::erase(key)` on an object (`std::map::erase`); throws
(`none`) on every non-object value. -/
def jErase (j : JValue) (k : String) : Option JValue :=
  match j with
  | .jobj kvs => some (.jobj (List.eraseP (fun kv => kv.1 == k) kvs))
  | _ => none

/-- Model of `json::get<std::string>()`: throws (`none`) unless the value is a
string. -/
def jGetString (j : JValue) : Option String :=
  match j with
  | .jstr s => some s
  | _ => none

mutual

/-- Value-level effect of `json::dump` followed by `json::parse`: the identity
on every JSON value except that non-finite doubles (which nlohmann prints as
`null`) become `null`, at any depth.  A stored slot holds the parse of the
file's text, so this is the map from the document a save passed to
`json::dump` to the document a later `json::parse` returns. -/
def jserialize : JValue → JValue
  | .jnull => .jnull
  | .jstr s => .jstr s
  | .jint n => .jint n
  | .jfloat f => if f.finite then .jfloat f else .jnull
  | .jbool b => .jbool b
  | .jarr xs => .jarr (jserializeArr xs)
  | .jobj kvs => .jobj (jserializeObj kvs)

/-- Elementwise `jserialize` over an array's members. -/
def jserializeArr : List JValue → List JValue
  | [] => []
  | x :: xs => jserialize x :: jserializeArr xs

/-- Elementwise `jserialize` over an object's member values. -/
def jserializeObj : List (String × JValue) → List (String × JValue)
  | [] => []
  | kv :: kvs => (kv.1, jserialize kv.2) :: jserializeObj kvs

end

/-- Model of a Flutter `FlValue`. -/
inductive FlValue : Type where
  | fnull
  | fstr (s : String)
  | fint (n : Int)
  | ffloat (f : FloatBits)
  | fbool (b : Bool)
  | fuint8list (bytes : List Nat)
  | flist (xs : List FlValue)
  | fmap (kvs : List (FlValue × FlValue))

/-- Whether an `FlValue` map key equals the queried string, as
`fl_value_lookup_string` compares keys (`fl_value_equal` against a temporary
string value: only a string key can match). -/
def flKeyIs (v : FlValue) (k : String) : Bool :=
  match v with
  | .fstr s => s == k
  | _ => false

/-- Lookup in the entry list of an `FlValue` map (first matching key). -/
def lookupFl : List (FlValue × FlValue) → String → Option FlValue
  | [], _ => none
  | kv :: rest, k => if flKeyIs kv.1 k then some kv.2 else lookupFl rest k

/-- Model of `fl_value_lookup_string(args, key)`: `none` is the C nullptr
(missing key, or `args` not a map). -/
def lookupString (args : FlValue) (k : String) : Option FlValue :=
  match args with
  | .fmap kvs => lookupFl kvs k
  | _ => none

/-- Scalar conversion inside the loop of `fl_value_to_json` (lines 71-87):
string, int, float and bool map across, everything else becomes `null`. -/
def flEntryVal (v : FlValue) : JValue :=
  match v with
  | .fstr s => .jstr s
  | .fint n => .jint n
  | .ffloat f => .jfloat f
  | .fbool b => .jbool b
  | _ => .jnull

/-- Model of `fl_value_to_json` (lines 52-92): null or any non-map becomes the
empty JSON object; for a map, entries with a string key are inserted into the
object in iteration order (later duplicates overwrite), all other keys are
skipped. -/
def fl_value_to_json (v : FlValue) : JValue :=
  match v with
  | .fmap kvs =>
    .jobj (kvs.foldl
      (fun acc kv =>
        match kv.1 with
        | .fstr k => jobjInsert acc k (flEntryVal kv.2)
        | _ => acc)
      [])
  | _ => .jobj []

/-- Per-value conversion inside `json_to_fl_value` (lines 102-116): strings,
integers, floats and booleans convert back, every other value is skipped. -/
def jback (j : JValue) : Option FlValue :=
  match j with
  | .jstr s => some (.fstr s)
  | .jint n => some (.fint n)
  | .jfloat f => some (.ffloat f)
  | .jbool b => some (.fbool b)
  | _ => none

/-- Model of `json_to_fl_value` (lines 95-119): null or any non-object becomes
an empty map; for an object the scalar members are appended in key order. -/
def json_to_fl_value (j : JValue) : FlValue :=
  match j with
  | .jobj kvs =>
    .fmap (kvs.filterMap (fun kv => (jback kv.2).map (fun v => (.fstr kv.1, v))))
  | _ => .fmap []

/-- Response of one method call: `fl_method_success_response_new` or
`fl_method_error_response_new` with its code and message. -/
inductive MethodResponse : Type where
  | success (v : FlValue)
  | error (code : String) (message : String)

/-- State of one on-disk file slot, as seen by `load_bookmarks`: the file may
be absent (`fs::exists` false), unreadable (`is_open` false), malformed
(`json::parse` throws), or hold parseable JSON text.  `stored j` stands for a
file whose text is the dump of `j`: saving writes its document verbatim into
the slot, and `json::parse` of that text yields `jserialize j`. -/
inductive StoreFile : Type where
  | absent
  | unreadable
  | malformed
  | stored (j : JValue)

/-- The storage directory: the document file `bookmarks.json` and its sibling
temporary file `bookmarks.json.tmp` (`none` = no temp file on disk). -/
structure Disk where
  main : StoreFile
  temp : Option StoreFile

/-- I/O environment of one `save_bookmarks` call (see the header comment). -/
structure SaveEnv where
  openFail : Bool
  writeFail : Bool
  renameFail : Bool

/-- The default document `{"bookmarks": {}, "version": "2.0"}` built at lines
127-130 (keys shown in the sorted order nlohmann stores them in). -/
def defaultDoc : JValue := .jobj [("bookmarks", .jobj []), ("version", .jstr "2.0")]

/-- Model of `load_bookmarks` (lines 122-161): absent, unopenable or
unparseable files and documents without a `bookmarks` member of object type
all yield the default document; otherwise the parsed document is returned.
The parse of a `stored j` slot is `jserialize j` (see `StoreFile`), and only
the main document file is ever read, never the `.tmp` sibling. -/
def load_bookmarks (d : Disk) : JValue :=
  match d.main with
  | .absent => defaultDoc
  | .unreadable => defaultDoc
  | .malformed => defaultDoc
  | .stored j =>
    match jserialize j with
    | .jobj top =>
      match alookup top "bookmarks" with
      | some (.jobj _) => .jobj top
      | _ => defaultDoc
    | _ => defaultDoc

/-- Model of `save_bookmarks` (lines 164-187).  If the temp file cannot be
opened, return false with nothing written.  Otherwise the serialized document
is written to the temp file; a silent OS write failure leaves a truncated,
unparseable temp file and is not detected (the stream state is never checked
and `operator<<` does not throw).  If `fs::rename` throws, the temp file is
removed and false is returned; otherwise the temp file is renamed over the
document file and true is returned. -/
def save_bookmarks (doc : JValue) (env : SaveEnv) (d : Disk) : Bool × Disk :=
  if env.openFail then (false, d)
  else
    let written : StoreFile := if env.writeFail then .malformed else .stored doc
    if env.renameFail then (false, { main := d.main, temp := none })
    else (true, { main := written, temp := none })

/-- Fields of `struct tm` produced by `gmtime`. -/
structure UTCTime where
  year : Nat
  month : Nat
  day : Nat
  hour : Nat
  minute : Nat
  second : Nat

/-- Decimal digit character. -/
def digitChar (n : Nat) : Char := Char.ofNat (48 + n)

/-- Decimal rendering, fuel-indexed for structural recursion; the fuel passed
by `natToDecimal` always suffices since `n / 10 < n` for `n ≥ 10`. -/
def natToDecimalAux : Nat → Nat → List Char
  | 0, _ => []
  | fuel + 1, n =>
    if n < 10 then [digitChar n]
    else natToDecimalAux fuel (n / 10) ++ [digitChar (n % 10)]

/-- Decimal rendering of a natural number, as `strftime` prints `%Y`. -/
def natToDecimal (n : Nat) : List Char := natToDecimalAux (n + 1) n

/-- Two-digit zero-padded rendering, as `strftime` prints `%m`, `%d`, `%H`,
`%M` and `%S`. -/
def pad2chars (n : Nat) : List Char :=
  if n < 10 then '0' :: natToDecimal n else natToDecimal n

/-- Model of `get_iso8601_timestamp` (lines 44-49): `strftime` with format
`%Y-%m-%dT%H:%M:%SZ` over the `gmtime` fields. -/
def get_iso8601_timestamp (t : UTCTime) : String :=
  String.mk (natToDecimal t.year ++ '-' :: pad2chars t.month ++ '-' :: pad2chars t.day
    ++ 'T' :: pad2chars t.hour ++ ':' :: pad2chars t.minute ++ ':' :: pad2chars t.second
    ++ ['Z'])

/-- Whether a string has the fixed shape `YYYY-MM-DDTHH:MM:SSZ`. -/
def iso8601Shape (s : String) : Bool :=
  match s.data with
  | [y1, y2, y3, y4, s1, m1, m2, s2, d1, d2, st, h1, h2, s3, n1, n2, s4, e1, e2, sz] =>
    y1.isDigit && y2.isDigit && y3.isDigit && y4.isDigit && s1 == '-'
      && m1.isDigit && m2.isDigit && s2 == '-' && d1.isDigit && d2.isDigit
      && st == 'T' && h1.isDigit && h2.isDigit && s3 == ':' && n1.isDigit && n2.isDigit
      && s4 == ':' && e1.isDigit && e2.isDigit && sz == 'Z'
  | _ => false

/-- Kind of a filesystem node, as distinguished by `stat`/`S_ISDIR`,
`fs::exists` and `fs::is_regular_file`. -/
inductive NodeKind : Type where
  | missing
  | dir
  | file
  | other
  deriving DecidableEq

/-- One entry yielded by `fs::directory_iterator`: its leaf name and kind. -/
structure DirEnt where
  name : String
  kind : NodeKind

/-- Oracle for the external filesystem at the moment of one call: node kinds,
`access(..., W_OK)` results, directory listings, whether streams can be
opened, file contents, and whether `directory_iterator` or `fs::remove`
throw. -/
structure ExtFS where
  node : String → NodeKind
  writable : String → Bool
  entries : String → List DirEnt
  openW : String → Bool
  openR : String → Bool
  content : String → List Nat
  listFail : String → Bool
  removeFail : String → Bool

/-- The bookmark entry JSON built by `create_bookmark` (lines 226-237): the
four members in nlohmann's sorted key order, with `metadata` replaced by the
converted argument when (and only when) the `metadata` argument is present and
is a map. -/
def mkBookmark (identifier path createdAt : String) (metadataArg : Option FlValue) : JValue :=
  let base : List (String × JValue) :=
    [("createdAt", .jstr createdAt), ("id", .jstr identifier),
     ("metadata", .jobj []), ("path", .jstr path)]
  match metadataArg with
  | some mv =>
    match mv with
    | .fmap mkvs => .jobj (jobjInsert base "metadata" (fl_value_to_json (.fmap mkvs)))
    | _ => .jobj base
  | none => .jobj base

/-- Model of `create_bookmark` (lines 190-250).  Checks, in source order: the
`identifier` argument is a string, the `path` argument is a string, `path` is
an existing directory (`stat` + `S_ISDIR`), the identifier is not already
present.  Then the new entry is inserted, the whole document saved, and the
identifier returned; a failed save yields `WRITE_ERROR`.  There is no
emptiness check on either string. -/
def create_bookmark (args : FlValue) (xfs : ExtFS) (t : UTCTime) (env : SaveEnv)
    (d : Disk) : Option (MethodResponse × Disk) :=
  match lookupString args "identifier" with
  | some (.fstr identifier) =>
    match lookupString args "path" with
    | some (.fstr path) =>
      if xfs.node path = .dir then
        let data := load_bookmarks d
        match jIndex data "bookmarks" with
        | some bms =>
          if jContains bms identifier then
            some (.error "BOOKMARK_ALREADY_EXISTS"
              ("Bookmark with identifier '" ++ identifier ++ "' already exists"), d)
          else
            let bookmark := mkBookmark identifier path (get_iso8601_timestamp t)
              (lookupString args "metadata")
            match jSet bms identifier bookmark with
            | some newBms =>
              match jSet data "bookmarks" newBms with
              | some newData =>
                let res := save_bookmarks newData env d
                if res.1 then some (.success (.fstr identifier), res.2)
                else some (.error "WRITE_ERROR" "Failed to save bookmark", res.2)
              | none => none
            | none => none
        | none => none
      else some (.error "DIRECTORY_NOT_FOUND" "Directory not found or is not accessible", d)
    | _ => some (.error "INVALID_ARGUMENT" "path must be a string", d)
  | _ => some (.error "INVALID_ARGUMENT" "identifier must be a string", d)

/-- Model of `get_bookmark` (lines 281-315): looks the identifier up in the
freshly loaded document, answers null if absent, otherwise rebuilds the entry
map; the `metadata` member is converted only when present and of object type,
otherwise an empty map is returned. -/
def get_bookmark (args : FlValue) (d : Disk) : Option MethodResponse :=
  match lookupString args "identifier" with
  | some (.fstr identifier) =>
    let data := load_bookmarks d
    match jIndex data "bookmarks" with
    | some bms =>
      if jContains bms identifier then
        match jIndex bms identifier with
        | some bookmark =>
          match jIndex bookmark "id" with
          | some idj =>
            match jGetString idj with
            | some ids =>
              match jIndex bookmark "path" with
              | some pj =>
                match jGetString pj with
                | some ps =>
                  match jIndex bookmark "createdAt" with
                  | some cj =>
                    match jGetString cj with
                    | some cs =>
                      let md : FlValue :=
                        match bookmark with
                        | .jobj bkvs =>
                          match alookup bkvs "metadata" with
                          | some (.jobj mkv) => json_to_fl_value (.jobj mkv)
                          | _ => .fmap []
                        | _ => .fmap []
                      some (.success (.fmap
                        [(.fstr "identifier", .fstr ids), (.fstr "path", .fstr ps),
                         (.fstr "createdAt", .fstr cs), (.fstr "metadata", md)]))
                    | none => none
                  | none => none
                | none => none
              | none => none
            | none => none
          | none => none
        | none => none
      else some (.success .fnull)
    | none => none
  | _ => some (.error "INVALID_ARGUMENT" "identifier must be a string")

/-- Model of `delete_bookmark` (lines 334-359): a missing identifier reports
false; otherwise the entry is erased and the document saved, reporting false
when the save fails. -/
def delete_bookmark (args : FlValue) (env : SaveEnv) (d : Disk) :
    Option (MethodResponse × Disk) :=
  match lookupString args "identifier" with
  | some (.fstr identifier) =>
    let data := load_bookmarks d
    match jIndex data "bookmarks" with
    | some bms =>
      if jContains bms identifier then
        match jErase bms identifier with
        | some newBms =>
          match jSet data "bookmarks" newBms with
          | some newData =>
            let res := save_bookmarks newData env d
            if res.1 then some (.success (.fbool true), res.2)
            else some (.success (.fbool false), res.2)
          | none => none
        | none => none
      else some (.success (.fbool false), d)
    | none => none
  | _ => some (.error "INVALID_ARGUMENT" "identifier must be a string", d)

/-- Model of `update_bookmark_metadata` (lines 362-393): requires a string
identifier and a map metadata argument, reports false for a missing bookmark,
otherwise wholesale-replaces the entry's `metadata` member with the converted
map and saves, reporting false when the save fails. -/
def update_bookmark_metadata (args : FlValue) (env : SaveEnv) (d : Disk) :
    Option (MethodResponse × Disk) :=
  match lookupString args "identifier" with
  | some (.fstr identifier) =>
    match lookupString args "metadata" with
    | some (.fmap mkvs) =>
      let data := load_bookmarks d
      match jIndex data "bookmarks" with
      | some bms =>
        if jContains bms identifier then
          match jIndex bms identifier with
          | some entry =>
            match jSet entry "metadata" (fl_value_to_json (.fmap mkvs)) with
            | some newEntry =>
              match jSet bms identifier newEntry with
              | some newBms =>
                match jSet data "bookmarks" newBms with
                | some newData =>
                  let res := save_bookmarks newData env d
                  if res.1 then some (.success (.fbool true), res.2)
                  else some (.success (.fbool false), res.2)
                | none => none
              | none => none
            | none => none
          | none => none
        else some (.success (.fbool false), d)
      | none => none
    | _ => some (.error "INVALID_ARGUMENT" "metadata must be a map", d)
  | _ => some (.error "INVALID_ARGUMENT" "identifier must be a string", d)

/-- Outcome of `get_bookmarked_path`: the identifier was not found or failed
the liveness check, or it resolved to a live directory path. -/
inductive Resolved : Type where
  | notFound
  | found (p : String)

/-- Model of `get_bookmarked_path` (lines 396-413): loads the document fresh,
fails if the identifier is absent, reads the stored `path`, and fails unless
that path is an existing directory right now (`stat` + `S_ISDIR` on every
call, nothing cached). -/
def get_bookmarked_path (identifier : String) (xfs : ExtFS) (d : Disk) : Option Resolved :=
  let data := load_bookmarks d
  match jIndex data "bookmarks" with
  | some bms =>
    if jContains bms identifier then
      match jIndex bms identifier with
      | some bookmark =>
        match jIndex bookmark "path" with
        | some pj =>
          match jGetString pj with
          | some p => if xfs.node p = .dir then some (.found p) else some (.notFound)
          | none => none
        | none => none
      | none => none
    else some .notFound
  | none => none

/-- Model of `save_file` (lines 416-475): argument checks in source order,
bookmark resolution, `access(..., W_OK)` on the directory, then the write to
`dir ++ "/" ++ fileName` (an unopenable stream reports `PERMISSION_DENIED`). -/
def save_file (args : FlValue) (xfs : ExtFS) (d : Disk) : Option MethodResponse :=
  match lookupString args "identifier" with
  | some (.fstr identifier) =>
    match lookupString args "fileName" with
    | some (.fstr filename) =>
      match lookupString args "data" with
      | some (.fuint8list _) =>
        match get_bookmarked_path identifier xfs d with
        | some (.found bookmarkPath) =>
          if xfs.writable bookmarkPath then
            let filePath := bookmarkPath ++ "/" ++ filename
            if xfs.openW filePath then some (.success (.fbool true))
            else some (.error "PERMISSION_DENIED" "Cannot write file")
          else some (.error "PERMISSION_DENIED" "No write permission for bookmarked directory")
        | some .notFound =>
          some (.error "BOOKMARK_NOT_FOUND"
            ("Bookmark with identifier '" ++ identifier ++ "' not found"))
        | none => none
      | _ => some (.error "INVALID_ARGUMENT" "data must be a Uint8List")
    | _ => some (.error "INVALID_ARGUMENT" "fileName must be a string")
  | _ => some (.error "INVALID_ARGUMENT" "identifier must be a string")

/-- Model of `read_file` (lines 478-533): resolution, then null for a path
that is not an existing regular file, then the read (an unopenable stream
reports `PERMISSION_DENIED`, otherwise the bytes are returned). -/
def read_file (args : FlValue) (xfs : ExtFS) (d : Disk) : Option MethodResponse :=
  match lookupString args "identifier" with
  | some (.fstr identifier) =>
    match lookupString args "fileName" with
    | some (.fstr filename) =>
      match get_bookmarked_path identifier xfs d with
      | some (.found bookmarkPath) =>
        let filePath := bookmarkPath ++ "/" ++ filename
        if xfs.node filePath = .file then
          if xfs.openR filePath then some (.success (.fuint8list (xfs.content filePath)))
          else some (.error "PERMISSION_DENIED" "Cannot read file")
        else some (.success .fnull)
      | some .notFound =>
        some (.error "BOOKMARK_NOT_FOUND"
          ("Bookmark with identifier '" ++ identifier ++ "' not found"))
      | none => none
    | _ => some (.error "INVALID_ARGUMENT" "fileName must be a string")
  | _ => some (.error "INVALID_ARGUMENT" "identifier must be a string")

/-- Filter applied to each directory entry by `list_files` (lines 559-567):
only regular files whose name is nonempty and does not start with `.` are
listed, under their leaf name. -/
def visibleFile (e : DirEnt) : Option String :=
  if e.kind = .file then
    match e.name.data with
    | [] => none
    | c :: _ => if c = '.' then none else some e.name
  else none

/-- Model of `list_files` (lines 536-574): resolution, then the filtered
directory listing in iterator order; a throwing `directory_iterator` reports
`READ_ERROR` (with the exception text, not modelled further). -/
def list_files (args : FlValue) (xfs : ExtFS) (d : Disk) : Option MethodResponse :=
  match lookupString args "identifier" with
  | some (.fstr identifier) =>
    match get_bookmarked_path identifier xfs d with
    | some (.found bookmarkPath) =>
      if xfs.listFail bookmarkPath then some (.error "READ_ERROR" "directory iteration failed")
      else some (.success (.flist
        (((xfs.entries bookmarkPath).filterMap visibleFile).map .fstr)))
    | some .notFound =>
      some (.error "BOOKMARK_NOT_FOUND"
        ("Bookmark with identifier '" ++ identifier ++ "' not found"))
    | none => none
  | _ => some (.error "INVALID_ARGUMENT" "identifier must be a string")

/-- Model of `delete_file` (lines 577-625): resolution, write-permission
check, false for a path that is not an existing regular file, then the
removal (a throwing `fs::remove` reports `DELETE_ERROR`). -/
def delete_file (args : FlValue) (xfs : ExtFS) (d : Disk) : Option MethodResponse :=
  match lookupString args "identifier" with
  | some (.fstr identifier) =>
    match lookupString args "fileName" with
    | some (.fstr filename) =>
      match get_bookmarked_path identifier xfs d with
      | some (.found bookmarkPath) =>
        if xfs.writable bookmarkPath then
          let filePath := bookmarkPath ++ "/" ++ filename
          if xfs.node filePath = .file then
            if xfs.removeFail filePath then some (.error "DELETE_ERROR" "remove failed")
            else some (.success (.fbool true))
          else some (.success (.fbool false))
        else some (.error "PERMISSION_DENIED" "No write permission for bookmarked directory")
      | some .notFound =>
        some (.error "BOOKMARK_NOT_FOUND"
          ("Bookmark with identifier '" ++ identifier ++ "' not found"))
      | none => none
    | _ => some (.error "INVALID_ARGUMENT" "fileName must be a string")
  | _ => some (.error "INVALID_ARGUMENT" "identifier must be a string")

/-- Model of `file_exists` (lines 628-657): any resolution failure reports
false; otherwise whether `dir ++ "/" ++ fileName` is an existing regular
file. -/
def file_exists (args : FlValue) (xfs : ExtFS) (d : Disk) : Option MethodResponse :=
  match lookupString args "identifier" with
  | some (.fstr identifier) =>
    match lookupString args "fileName" with
    | some (.fstr filename) =>
      match get_bookmarked_path identifier xfs d with
      | some (.found bookmarkPath) =>
        let filePath := bookmarkPath ++ "/" ++ filename
        some (.success (.fbool (xfs.node filePath = .file)))
      | some .notFound => some (.success (.fbool false))
      | none => none
    | _ => some (.error "INVALID_ARGUMENT" "fileName must be a string")
  | _ => some (.error "INVALID_ARGUMENT" "identifier must be a string")

/-- Model of `has_write_permission` (lines 660-677): false on resolution
failure, otherwise the `access(..., W_OK)` result on the resolved directory
at call time. -/
def has_write_permission (args : FlValue) (xfs : ExtFS) (d : Disk) : Option MethodResponse :=
  match lookupString args "identifier" with
  | some (.fstr identifier) =>
    match get_bookmarked_path identifier xfs d with
    | some (.found bookmarkPath) => some (.success (.fbool (xfs.writable bookmarkPath)))
    | some .notFound => some (.success (.fbool false))
    | none => none
  | _ => some (.error "INVALID_ARGUMENT" "identifier must be a string")

/-- Whether a document has a `bookmarks` member of object type, the structural
validation of `load_bookmarks` (line 146). -/
def docWellFormed (j : JValue) : Bool :=
  match j with
  | .jobj top =>
    match alookup top "bookmarks" with
    | some (.jobj _) => true
    | _ => false
  | _ => false

/-- Observation: the bookmark entries of the freshly loaded document. -/
def loadedBookmarks (d : Disk) : List (String × JValue) :=
  match load_bookmarks d with
  | .jobj top =>
    match alookup top "bookmarks" with
    | some (.jobj bms) => bms
    | _ => []
  | _ => []

/-- Observation: the entry stored under an identifier in the persisted
document. -/
def bmLookup (d : Disk) (k : String) : Option JValue := alookup (loadedBookmarks d) k

/-- Observation: the response part of a registry mutation's result. -/
def respOf (r : Option (MethodResponse × Disk)) : Option MethodResponse :=
  r.map (fun rp => rp.1)

/-- Whether an `FlValue` is one of the four scalar kinds that survive the
metadata conversion in both directions. -/
def isScalarFl (v : FlValue) : Bool :=
  match v with
  | .fstr _ => true
  | .fint _ => true
  | .ffloat _ => true
  | .fbool _ => true
  | _ => false

/-- Whether an `FlValue` is a scalar that survives the dump/parse boundary
unchanged: strings, integers and booleans always do, a double only when it is
finite (nlohmann prints NaN and infinities as `null`). -/
def isPersistableScalar (v : FlValue) : Bool :=
  match v with
  | .fstr _ => true
  | .fint _ => true
  | .ffloat f => f.finite
  | .fbool _ => true
  | _ => false

/-- The JSON stored in the `metadata` member of a freshly created bookmark,
as a function of the `metadata` argument (lines 230 and 234-237). -/
def metaOf : Option FlValue → JValue
  | some (.fmap mkvs) => fl_value_to_json (.fmap mkvs)
  | some _ => .jobj []
  | none => .jobj []

/-- An I/O environment in which every step of a save succeeds. -/
def envOk : SaveEnv := ⟨false, false, false⟩

/-- An I/O environment in which the OS writes to the opened temp file fail
silently (for example the disk filling up mid-write). -/
def envSilentWriteFail : SaveEnv := ⟨false, true, false⟩

/-- A sample time instant. -/
def t0 : UTCTime := ⟨2026, 10, 11, 9, 5, 30⟩

/-- A well-formed stored entry for identifier `a` at path `/d`. -/
def entryA : List (String × JValue) :=
  [("createdAt", .jstr "2026-01-01T00:00:00Z"), ("id", .jstr "a"),
   ("metadata", .jobj []), ("path", .jstr "/d")]

/-- A registry document holding the single bookmark `a`. -/
def doc0 : JValue := .jobj [("bookmarks", .jobj [("a", .jobj entryA)]), ("version", .jstr "2.0")]

/-- A registry document holding the bookmarks `a` and `b`. -/
def doc1 : JValue :=
  .jobj [("bookmarks", .jobj
    [("a", .jobj entryA),
     ("b", .jobj [("createdAt", .jstr "2026-01-02T00:00:00Z"), ("id", .jstr "b"),
       ("metadata", .jobj []), ("path", .jstr "/d")])]),
   ("version", .jstr "2.0")]

/-- A filesystem in which exactly `/d` is a directory, everything is writable
and openable, and `/d` holds one visible file, one hidden file and one
subdirectory. -/
def fsD : ExtFS :=
  { node := fun p => if p = "/d" then .dir else .missing
    writable := fun _ => true
    entries := fun p =>
      if p = "/d" then [⟨"a.txt", .file⟩, ⟨".hidden", .file⟩, ⟨"sub", .dir⟩] else []
    openW := fun _ => true
    openR := fun _ => true
    content := fun _ => []
    listFail := fun _ => false
    removeFail := fun _ => false }

/-- A filesystem in which nothing exists at all. -/
def fsGone : ExtFS :=
  { node := fun _ => .missing
    writable := fun _ => false
    entries := fun _ => []
    openW := fun _ => false
    openR := fun _ => false
    content := fun _ => []
    listFail := fun _ => false
    removeFail := fun _ => false }

/-- Argument map `{identifier: id}` as sent by the dispatcher to the
single-argument methods. -/
def gArgs (id : String) : FlValue := .fmap [(.fstr "identifier", .fstr id)]

/-- Argument map `{identifier: id, fileName: fn}`. -/
def fnArgs (id fn : String) : FlValue :=
  .fmap [(.fstr "identifier", .fstr id), (.fstr "fileName", .fstr fn)]

/-- Argument map `{identifier: id, fileName: fn, data: bytes}`. -/
def saveArgs (id fn : String) (bytes : List Nat) : FlValue :=
  .fmap [(.fstr "identifier", .fstr id), (.fstr "fileName", .fstr fn),
    (.fstr "data", .fuint8list bytes)]

/-- Create-call arguments reusing identifier `a` with a nonexistent path. -/
def argsC3 : FlValue := .fmap [(.fstr "identifier", .fstr "a"), (.fstr "path", .fstr "/nope")]

/-- Create-call arguments with an empty identifier string and a live path. -/
def argsC4 : FlValue := .fmap [(.fstr "identifier", .fstr ""), (.fstr "path", .fstr "/d")]

/-- Create-call arguments for a fresh identifier at a live path. -/
def argsC5 : FlValue := .fmap [(.fstr "identifier", .fstr "proj"), (.fstr "path", .fstr "/d")]

/-- A sample scalar metadata mapping. -/
def pairsC6 : List (String × FlValue) := [("color", .fstr "blue"), ("n", .fint 3)]

/-- Update-call arguments replacing the metadata of bookmark `a`. -/
def argsC6 : FlValue :=
  .fmap [(.fstr "identifier", .fstr "a"),
    (.fstr "metadata", .fmap (pairsC6.map (fun q => (.fstr q.1, q.2))))]

/-- Create-call arguments with a fresh identifier, a live path, and a
metadata argument that is a string rather than a map. -/
def argsC10 : FlValue :=
  .fmap [(.fstr "identifier", .fstr "n2"), (.fstr "path", .fstr "/d"),
    (.fstr "metadata", .fstr "oops")]

/-- Bit pattern of a quiet NaN double (exponent bits all ones). -/
def nanBits : FloatBits := ⟨0x7FF8000000000000⟩

/-- A scalar metadata mapping holding one NaN double. -/
def pairsNaN : List (String × FlValue) := [("x", .ffloat nanBits)]

/-- Update-call arguments replacing the metadata of bookmark `a` with
`pairsNaN`. -/
def argsNaN : FlValue :=
  .fmap [(.fstr "identifier", .fstr "a"),
    (.fstr "metadata", .fmap (pairsNaN.map (fun q => (.fstr q.1, q.2))))]

/-- The disk state after that update: bookmark `a` with the NaN double still
stored verbatim in the (not yet re-parsed) document file. -/
def dNaN : Disk :=
  ⟨.stored (.jobj [("bookmarks", .jobj [("a", .jobj
      [("createdAt", .jstr "2026-01-01T00:00:00Z"), ("id", .jstr "a"),
       ("metadata", .jobj [("x", .jfloat nanBits)]), ("path", .jstr "/d")])]),
    ("version", .jstr "2.0")]), none⟩

theorem alookup_jobjInsert_self (kvs : List (String × JValue)) (k : String) (v : JValue) :
    alookup (jobjInsert kvs k v) k = some v := by
  induction kvs with
  | nil => simp [jobjInsert, alookup]
  | cons kv rest ih =>
    simp only [jobjInsert]
    split
    · simp [alookup]
    · split
      · simp [alookup]
      · rename_i h1 h2
        simp only [alookup]
        rw [if_neg, ih]
        simp only [beq_iff_eq]
        intro hh
        exact h2 (by simp [hh])

theorem alookup_jobjInsert_ne (kvs : List (String × JValue)) (k k2 : String) (v : JValue)
    (h : k2 ≠ k) : alookup (jobjInsert kvs k v) k2 = alookup kvs k2 := by
  induction kvs with
  | nil => simp [jobjInsert, alookup, h.symm]
  | cons kv rest ih =>
    simp only [jobjInsert]
    split
    · simp only [alookup]
      rw [if_neg (by simp [beq_iff_eq]; exact fun hh => h hh.symm)]
    · split
      · rename_i h1 h2
        simp only [alookup]
        rw [if_neg (by simp [beq_iff_eq]; exact fun hh => h hh.symm)]
        have hk2 : k = kv.1 := by simpa [beq_iff_eq] using h2
        have hk : kv.1 = k := hk2.symm
        rw [if_neg (by rw [hk]; simp [beq_iff_eq]; exact fun hh => h hh.symm)]
      · simp only [alookup]
        split
        · rfl
        · exact ih

theorem alookup_eraseP_ne (kvs : List (String × JValue)) (k k2 : String)
    (h : k2 ≠ k) :
    alookup (List.eraseP (fun kv => kv.1 == k) kvs) k2 = alookup kvs k2 := by
  induction kvs with
  | nil => simp [alookup]
  | cons kv rest ih =>
    simp only [List.eraseP_cons]
    by_cases hk : kv.1 = k
    · simp only [hk, beq_self_eq_true, cond_true]
      simp only [alookup]
      rw [if_neg (by simp [beq_iff_eq, hk]; exact fun hh => h hh.symm)]
    · rw [show (kv.1 == k) = false by simp [beq_iff_eq, hk]]
      simp only [cond_false]
      simp only [alookup]
      split
      · rfl
      · exact ih

mutual

theorem jserialize_idem : ∀ (j : JValue), jserialize (jserialize j) = jserialize j
  | .jnull => rfl
  | .jstr s => rfl
  | .jint n => rfl
  | .jbool b => rfl
  | .jfloat f => by
    simp only [jserialize]
    by_cases hf : f.finite
    · rw [if_pos hf]
      simp only [jserialize]
      rw [if_pos hf]
    · rw [if_neg hf]
      rfl
  | .jarr xs => by
    simp only [jserialize]
    rw [jserializeArr_idem xs]
  | .jobj kvs => by
    simp only [jserialize]
    rw [jserializeObj_idem kvs]

theorem jserializeArr_idem : ∀ (xs : List JValue),
    jserializeArr (jserializeArr xs) = jserializeArr xs
  | [] => rfl
  | x :: xs => by
    simp only [jserializeArr]
    rw [jserialize_idem x, jserializeArr_idem xs]

theorem jserializeObj_idem : ∀ (kvs : List (String × JValue)),
    jserializeObj (jserializeObj kvs) = jserializeObj kvs
  | [] => rfl
  | kv :: kvs => by
    simp only [jserializeObj]
    rw [jserialize_idem kv.2, jserializeObj_idem kvs]

end

theorem alookup_jserializeObj (kvs : List (String × JValue)) (k : String) :
    alookup (jserializeObj kvs) k = (alookup kvs k).map jserialize := by
  induction kvs with
  | nil => rfl
  | cons kv rest ih =>
    simp only [jserializeObj, alookup]
    split
    · rfl
    · exact ih

theorem isPersistableScalar_scalar (v : FlValue) (h : isPersistableScalar v = true) :
    isScalarFl v = true := by
  cases v <;> simp [isPersistableScalar] at h <;> rfl

theorem jserialize_flEntryVal (v : FlValue) (h : isPersistableScalar v = true) :
    jserialize (flEntryVal v) = flEntryVal v := by
  cases v with
  | fstr s => rfl
  | fint n => rfl
  | fbool b => rfl
  | ffloat f =>
    have hf : f.finite = true := by simpa [isPersistableScalar] using h
    show jserialize (.jfloat f) = .jfloat f
    simp only [jserialize]
    rw [if_pos hf]
  | fnull => simp [isPersistableScalar] at h
  | fuint8list bs => simp [isPersistableScalar] at h
  | flist xs => simp [isPersistableScalar] at h
  | fmap kvs => simp [isPersistableScalar] at h

theorem jserializeObj_fixed (kvs : List (String × JValue))
    (h : ∀ p ∈ kvs, jserialize p.2 = p.2) : jserializeObj kvs = kvs := by
  induction kvs with
  | nil => rfl
  | cons kv rest ih =>
    show (kv.1, jserialize kv.2) :: jserializeObj rest = kv :: rest
    rw [h kv (by simp), ih (fun p hp => h p (by simp [hp]))]

theorem docWellFormed_serialize (j : JValue) :
    docWellFormed (jserialize j) = docWellFormed j := by
  cases j with
  | jobj kvs =>
    simp only [jserialize, docWellFormed, alookup_jserializeObj]
    cases hb : alookup kvs "bookmarks" with
    | none => rfl
    | some v =>
      simp only [Option.map_some']
      cases v with
      | jobj b => simp only [jserialize]
      | jnull => rfl
      | jstr s => rfl
      | jint n => rfl
      | jbool b => rfl
      | jarr xs => simp only [jserialize]
      | jfloat f =>
        simp only [jserialize]
        by_cases hf : f.finite
        · rw [if_pos hf]
        · rw [if_neg hf]
  | jnull => rfl
  | jstr s => rfl
  | jint n => rfl
  | jbool b => rfl
  | jarr xs => simp only [jserialize, docWellFormed]
  | jfloat f =>
    simp only [jserialize, docWellFormed]
    by_cases hf : f.finite
    · rw [if_pos hf]
    · rw [if_neg hf]

theorem docWellFormed_spec (j : JValue) (h : docWellFormed j = true) :
    ∃ top bms, j = .jobj top ∧ alookup top "bookmarks" = some (.jobj bms) := by
  unfold docWellFormed at h
  split at h
  · rename_i top
    split at h
    · rename_i bms hb
      exact ⟨top, bms, rfl, hb⟩
    · exact absurd h (by simp)
  · exact absurd h (by simp)

theorem docWellFormed_load (d : Disk) : docWellFormed (load_bookmarks d) = true := by
  unfold load_bookmarks
  split
  · rfl
  · rfl
  · rfl
  · split
    · split
      · rename_i hb
        simp [docWellFormed, hb]
      · rfl
    · rfl

theorem loaded_shape (d : Disk) :
    ∃ top, load_bookmarks d = .jobj top ∧
      alookup top "bookmarks" = some (.jobj (loadedBookmarks d)) := by
  obtain ⟨top, bms, hj, hb⟩ := docWellFormed_spec _ (docWellFormed_load d)
  refine ⟨top, hj, ?_⟩
  have : loadedBookmarks d = bms := by
    unfold loadedBookmarks
    rw [hj]
    simp [hb]
  rw [this]
  exact hb

theorem load_serialized (d : Disk) : jserialize (load_bookmarks d) = load_bookmarks d := by
  unfold load_bookmarks
  split
  · rfl
  · rfl
  · rfl
  · rename_i j hj
    split
    · rename_i top heq
      split
      · have hi := jserialize_idem j
        rw [heq] at hi
        exact hi
      · rfl
    · rfl

theorem loadedBookmarks_serialized (d : Disk) :
    jserializeObj (loadedBookmarks d) = loadedBookmarks d := by
  obtain ⟨top, hj, hb⟩ := loaded_shape d
  have hs := load_serialized d
  rw [hj] at hs
  have htop : jserializeObj top = top := by
    have h2 : JValue.jobj (jserializeObj top) = JValue.jobj top := by
      simpa [jserialize] using hs
    injection h2
  have hb2 := alookup_jserializeObj top "bookmarks"
  rw [htop, hb] at hb2
  simp only [Option.map_some', jserialize] at hb2
  injection hb2 with h1
  injection h1 with h2
  exact h2.symm

theorem bmLookup_serialize_fixed (d : Disk) (k : String) :
    (bmLookup d k).map jserialize = bmLookup d k := by
  rw [bmLookup, ← alookup_jserializeObj, loadedBookmarks_serialized]

theorem load_temp_irrel (m : StoreFile) (t1 t2 : Option StoreFile) :
    load_bookmarks ⟨m, t1⟩ = load_bookmarks ⟨m, t2⟩ := rfl

theorem natToDecimalAux_fuel (n : Nat) :
    ∀ fuel, n < fuel → natToDecimalAux fuel n = natToDecimal n := by
  induction n using Nat.strong_induction_on with
  | _ n ih =>
    intro fuel hf
    obtain ⟨f, rfl⟩ : ∃ f, fuel = f + 1 := ⟨fuel - 1, by omega⟩
    unfold natToDecimal
    by_cases h10 : n < 10
    · simp [natToDecimalAux, h10]
    · simp only [natToDecimalAux, if_neg h10]
      rw [ih (n / 10) (Nat.div_lt_self (by omega) (by omega)) f (by omega),
        ih (n / 10) (Nat.div_lt_self (by omega) (by omega)) n (by omega)]

theorem natToDecimal_eq (n : Nat) :
    natToDecimal n =
      if n < 10 then [digitChar n] else natToDecimal (n / 10) ++ [digitChar (n % 10)] := by
  unfold natToDecimal
  by_cases h10 : n < 10
  · simp [natToDecimalAux, h10]
  · simp only [natToDecimalAux, if_neg h10]
    rw [natToDecimalAux_fuel (n / 10) n (by omega)]
    unfold natToDecimal
    rfl

theorem digitChar_isDigit (n : Nat) (h : n < 10) : (digitChar n).isDigit = true := by
  interval_cases n <;> decide

theorem pad2chars_shape (n : Nat) (h : n ≤ 99) :
    ∃ a b, pad2chars n = [a, b] ∧ a.isDigit = true ∧ b.isDigit = true := by
  unfold pad2chars
  by_cases h10 : n < 10
  · refine ⟨'0', digitChar n, ?_, by decide, digitChar_isDigit n h10⟩
    rw [if_pos h10, natToDecimal_eq, if_pos h10]
  · refine ⟨digitChar (n / 10), digitChar (n % 10), ?_,
      digitChar_isDigit _ (by omega), digitChar_isDigit _ (by omega)⟩
    rw [if_neg h10, natToDecimal_eq, if_neg h10, natToDecimal_eq, if_pos (by omega)]
    rfl

theorem natToDecimal_year (n : Nat) (h1 : 1000 ≤ n) (h2 : n ≤ 9999) :
    ∃ a b c e, natToDecimal n = [a, b, c, e] ∧ a.isDigit = true ∧ b.isDigit = true
      ∧ c.isDigit = true ∧ e.isDigit = true := by
  rw [natToDecimal_eq, if_neg (by omega)]
  rw [natToDecimal_eq (n / 10), if_neg (by omega)]
  rw [natToDecimal_eq (n / 10 / 10), if_neg (by omega)]
  rw [natToDecimal_eq (n / 10 / 10 / 10), if_pos (by omega)]
  refine ⟨digitChar (n / 10 / 10 / 10), digitChar (n / 10 / 10 % 10),
    digitChar (n / 10 % 10), digitChar (n % 10), by simp,
    digitChar_isDigit _ (by omega), digitChar_isDigit _ (by omega),
    digitChar_isDigit _ (by omega), digitChar_isDigit _ (by omega)⟩

theorem iso8601Shape_timestamp (t : UTCTime) (hy1 : 1000 ≤ t.year) (hy2 : t.year ≤ 9999)
    (hmo : t.month ≤ 99) (hda : t.day ≤ 99) (hho : t.hour ≤ 99) (hmi : t.minute ≤ 99)
    (hse : t.second ≤ 99) :
    iso8601Shape (get_iso8601_timestamp t) = true := by
  obtain ⟨a, b, c, e, hy, ha, hb, hc, he⟩ := natToDecimal_year t.year hy1 hy2
  obtain ⟨p1, p2, hm, hp1, hp2⟩ := pad2chars_shape t.month hmo
  obtain ⟨q1, q2, hd, hq1, hq2⟩ := pad2chars_shape t.day hda
  obtain ⟨r1, r2, hh, hr1, hr2⟩ := pad2chars_shape t.hour hho
  obtain ⟨u1, u2, hu, hu1, hu2⟩ := pad2chars_shape t.minute hmi
  obtain ⟨w1, w2, hw, hw1, hw2⟩ := pad2chars_shape t.second hse
  unfold get_iso8601_timestamp
  rw [hy, hm, hd, hh, hu, hw]
  simp only [iso8601Shape, List.cons_append, List.nil_append]
  simp [ha, hb, hc, he, hp1, hp2, hq1, hq2, hr1, hr2, hu1, hu2, hw1, hw2]

theorem mkBookmark_shape (i p ts : String) (marg : Option FlValue) :
    mkBookmark i p ts marg =
      .jobj [("createdAt", .jstr ts), ("id", .jstr i),
        ("metadata", metaOf marg), ("path", .jstr p)] := by
  cases marg with
  | none => rfl
  | some mv => cases mv <;> rfl

theorem mkBookmark_id (i p ts : String) (marg : Option FlValue) :
    jIndex (mkBookmark i p ts marg) "id" = some (.jstr i) := by
  rw [mkBookmark_shape]; rfl

theorem mkBookmark_path (i p ts : String) (marg : Option FlValue) :
    jIndex (mkBookmark i p ts marg) "path" = some (.jstr p) := by
  rw [mkBookmark_shape]; rfl

theorem mkBookmark_createdAt (i p ts : String) (marg : Option FlValue) :
    jIndex (mkBookmark i p ts marg) "createdAt" = some (.jstr ts) := by
  rw [mkBookmark_shape]; rfl

theorem create_success (args : FlValue) (xfs : ExtFS) (t : UTCTime) (env : SaveEnv) (d : Disk)
    (id p : String)
    (hid : lookupString args "identifier" = some (.fstr id))
    (hp : lookupString args "path" = some (.fstr p))
    (hdir : xfs.node p = .dir)
    (hfresh : bmLookup d id = none)
    (ho : env.openFail = false) (hw : env.writeFail = false) (hr : env.renameFail = false) :
    ∃ top, load_bookmarks d = .jobj top ∧
      create_bookmark args xfs t env d = some (.success (.fstr id),
        ⟨.stored (.jobj (jobjInsert top "bookmarks"
          (.jobj (jobjInsert (loadedBookmarks d) id
            (mkBookmark id p (get_iso8601_timestamp t) (lookupString args "metadata")))))),
          none⟩) := by
  obtain ⟨top, hload, hbms⟩ := loaded_shape d
  simp only [bmLookup] at hfresh
  refine ⟨top, hload, ?_⟩
  simp only [create_bookmark, hid, hp, hdir, hload, jIndex, hbms, Option.getD,
    jContains, hfresh, Option.isSome, jSet, save_bookmarks, ho, hw, hr]
  simp

theorem alookup_eq_none {α : Type} (l : List (String × α)) (k : String)
    (h : alookup l k = none) : ∀ q ∈ l, q.1 ≠ k := by
  induction l with
  | nil => intro q hq; simp at hq
  | cons kv rest ih =>
    intro q hq
    simp only [alookup] at h
    rcases List.mem_cons.mp hq with rfl | hq2
    · intro hk
      rw [if_pos (by simp [beq_iff_eq, hk])] at h
      exact Option.noConfusion h
    · split at h
      · exact Option.noConfusion h
      · exact ih h q hq2

theorem alookup_eq_some {α : Type} (l : List (String × α)) (k : String) (v : α)
    (h : alookup l k = some v) : ∃ q, q ∈ l ∧ q.1 = k ∧ q.2 = v := by
  induction l with
  | nil => simp [alookup] at h
  | cons kv rest ih =>
    simp only [alookup] at h
    split at h
    · rename_i hk
      exact ⟨kv, by simp, by simpa [beq_iff_eq] using hk, by injection h⟩
    · obtain ⟨q, hq, hq1, hq2⟩ := ih h
      exact ⟨q, by simp [hq], hq1, hq2⟩

theorem lookupFl_map_fstr (pairs : List (String × FlValue)) (k : String) :
    lookupFl (pairs.map (fun q => (.fstr q.1, q.2))) k = alookup pairs k := by
  induction pairs with
  | nil => rfl
  | cons q rest ih =>
    simp only [List.map_cons, lookupFl, alookup, flKeyIs]
    split
    · rfl
    · exact ih

theorem alookup_foldlInsert_not_mem {α : Type} (f : α → JValue) (qs : List (String × α))
    (acc : List (String × JValue)) (k : String) (h : ∀ q ∈ qs, q.1 ≠ k) :
    alookup (qs.foldl (fun a q => jobjInsert a q.1 (f q.2)) acc) k = alookup acc k := by
  induction qs generalizing acc with
  | nil => rfl
  | cons q rest ih =>
    simp only [List.foldl_cons]
    rw [ih _ (fun x hx => h x (by simp [hx]))]
    exact alookup_jobjInsert_ne _ _ _ _ (fun hk => (h q (by simp)) hk.symm)

theorem alookup_foldlInsert_mem {α : Type} (f : α → JValue) (qs : List (String × α))
    (acc : List (String × JValue)) (k : String) (v : α)
    (hnd : (qs.map Prod.fst).Nodup) (hmem : alookup qs k = some v) :
    alookup (qs.foldl (fun a q => jobjInsert a q.1 (f q.2)) acc) k = some (f v) := by
  induction qs generalizing acc with
  | nil => simp [alookup] at hmem
  | cons q rest ih =>
    simp only [List.map_cons, List.nodup_cons] at hnd
    simp only [alookup] at hmem
    by_cases hq : (q.1 == k) = true
    · rw [if_pos hq] at hmem
      have hqv : q.2 = v := by injection hmem
      have hk : q.1 = k := by simpa [beq_iff_eq] using hq
      simp only [List.foldl_cons]
      rw [alookup_foldlInsert_not_mem f rest _ k ?hrest]
      · rw [← hk, ← hqv]
        exact alookup_jobjInsert_self _ _ _
      case hrest =>
        intro x hx hxk
        exact hnd.1 (List.mem_map.mpr ⟨x, hx, by rw [hxk, ← hk]⟩)
    · rw [if_neg hq] at hmem
      simp only [List.foldl_cons]
      exact ih _ hnd.2 hmem

theorem jback_flEntryVal (v : FlValue) (h : isScalarFl v = true) :
    jback (flEntryVal v) = some v := by
  cases v <;> first | rfl | simp [isScalarFl] at h

theorem mem_jobjInsert (kvs : List (String × JValue)) (k : String) (v : JValue)
    (p : String × JValue) (hp : p ∈ jobjInsert kvs k v) : p = (k, v) ∨ p ∈ kvs := by
  induction kvs with
  | nil => simpa [jobjInsert] using hp
  | cons kv rest ih =>
    simp only [jobjInsert] at hp
    split at hp
    · rcases List.mem_cons.mp hp with rfl | hp2
      · exact Or.inl rfl
      · exact Or.inr hp2
    · split at hp
      · rcases List.mem_cons.mp hp with rfl | hp2
        · exact Or.inl rfl
        · exact Or.inr (List.mem_cons.mpr (Or.inr hp2))
      · rcases List.mem_cons.mp hp with rfl | hp2
        · exact Or.inr (List.mem_cons.mpr (Or.inl rfl))
        · rcases ih hp2 with h1 | h2
          · exact Or.inl h1
          · exact Or.inr (List.mem_cons.mpr (Or.inr h2))

theorem foldlInsert_vals {α : Type} (f : α → JValue) (P : α → Bool) (qs : List (String × α))
    (acc : List (String × JValue))
    (hq : ∀ q ∈ qs, P q.2 = true)
    (hacc : ∀ p ∈ acc, ∃ v, P v = true ∧ p.2 = f v) :
    ∀ p ∈ qs.foldl (fun a q => jobjInsert a q.1 (f q.2)) acc,
      ∃ v, P v = true ∧ p.2 = f v := by
  induction qs generalizing acc with
  | nil => exact hacc
  | cons q rest ih =>
    simp only [List.foldl_cons]
    refine ih _ (fun x hx => hq x (by simp [hx])) ?_
    intro p hp
    rcases mem_jobjInsert _ _ _ _ hp with rfl | hp2
    · exact ⟨q.2, hq q (by simp), rfl⟩
    · exact hacc p hp2

theorem lookupFl_filterMap_back (obj : List (String × JValue))
    (h : ∀ p ∈ obj, ∃ v, isScalarFl v = true ∧ p.2 = flEntryVal v) (k : String) :
    lookupFl (obj.filterMap (fun kv => (jback kv.2).map (fun v => (.fstr kv.1, v)))) k
      = (alookup obj k).bind jback := by
  induction obj with
  | nil => rfl
  | cons kv rest ih =>
    obtain ⟨v, hv, hkv⟩ := h kv (by simp)
    have hjb : jback kv.2 = some v := by rw [hkv]; exact jback_flEntryVal v hv
    rw [List.filterMap_cons]
    simp only [hjb, Option.map_some']
    simp only [lookupFl, flKeyIs, alookup]
    by_cases hk : (kv.1 == k) = true
    · rw [if_pos hk, if_pos hk]
      simp [hjb]
    · rw [if_neg hk, if_neg hk]
      exact ih (fun p hp => h p (by simp [hp]))

theorem metadata_roundtrip (pairs : List (String × FlValue))
    (hnd : (pairs.map Prod.fst).Nodup) (hsc : ∀ q ∈ pairs, isScalarFl q.2 = true)
    (k : String) :
    lookupString (json_to_fl_value (fl_value_to_json
      (.fmap (pairs.map (fun q => (.fstr q.1, q.2)))))) k = alookup pairs k := by
  have hobj : fl_value_to_json (.fmap (pairs.map (fun q => (.fstr q.1, q.2))))
      = .jobj (pairs.foldl (fun a q => jobjInsert a q.1 (flEntryVal q.2)) []) := by
    simp only [fl_value_to_json, List.foldl_map]
  rw [hobj]
  simp only [json_to_fl_value, lookupString]
  rw [lookupFl_filterMap_back _
    (foldlInsert_vals flEntryVal isScalarFl pairs [] hsc (by intro p hp; simp at hp)) k]
  cases hmem : alookup pairs k with
  | none =>
    rw [alookup_foldlInsert_not_mem flEntryVal pairs [] k (alookup_eq_none _ _ hmem)]
    rfl
  | some v =>
    rw [alookup_foldlInsert_mem flEntryVal pairs [] k v hnd hmem]
    obtain ⟨q, hq, hq1, hq2⟩ := alookup_eq_some _ _ _ hmem
    simpa using jback_flEntryVal v (hq2 ▸ hsc q hq)

theorem jserialize_fljson_persistable (pairs : List (String × FlValue))
    (hps : ∀ q ∈ pairs, isPersistableScalar q.2 = true) :
    jserialize (fl_value_to_json (.fmap (pairs.map (fun q => (.fstr q.1, q.2)))))
      = fl_value_to_json (.fmap (pairs.map (fun q => (.fstr q.1, q.2)))) := by
  have hobj : fl_value_to_json (.fmap (pairs.map (fun q => (.fstr q.1, q.2))))
      = .jobj (pairs.foldl (fun a q => jobjInsert a q.1 (flEntryVal q.2)) []) := by
    simp only [fl_value_to_json, List.foldl_map]
  rw [hobj]
  have hvals := foldlInsert_vals flEntryVal isPersistableScalar pairs [] hps
    (by intro p hp; simp at hp)
  simp only [jserialize]
  rw [jserializeObj_fixed _ (fun p hp => by
    obtain ⟨v, hv, hpv⟩ := hvals p hp
    rw [hpv]
    exact jserialize_flEntryVal v hv)]

theorem lookupString_gArgs (id : String) :
    lookupString (gArgs id) "identifier" = some (.fstr id) := rfl

theorem get_bookmark_found (d : Disk) (id : String) (ekvs : List (String × JValue))
    (hentry : bmLookup d id = some (.jobj ekvs))
    (ids ps cs : String) (mkv : List (String × JValue))
    (hid2 : alookup ekvs "id" = some (.jstr ids))
    (hp2 : alookup ekvs "path" = some (.jstr ps))
    (hc2 : alookup ekvs "createdAt" = some (.jstr cs))
    (hm2 : alookup ekvs "metadata" = some (.jobj mkv)) :
    get_bookmark (gArgs id) d = some (.success (.fmap
      [(.fstr "identifier", .fstr ids), (.fstr "path", .fstr ps),
       (.fstr "createdAt", .fstr cs), (.fstr "metadata", json_to_fl_value (.jobj mkv))])) := by
  obtain ⟨top, hload, hbms⟩ := loaded_shape d
  simp only [bmLookup] at hentry
  simp only [get_bookmark, lookupString_gArgs, hload, jIndex, hbms, Option.getD,
    jContains, hentry, Option.isSome, jGetString, hid2, hp2, hc2, hm2, if_true]

/-- Claim C1: `save(doc)` writes the serialized document to a `.tmp` sibling
and renames it over the real path, returns true on success and false on any
I/O failure, cleans up the temp file on failure, and an interrupted save
leaves `load()` observing either the pre-save or the post-save document.
This theorem evaluates the model at the failing input: the temp file opens
but the OS writes to it fail silently (e.g. disk full), which the code never
detects because it does not check the stream state after `operator<<`.  The
save returns true, the truncated temp file is renamed over the document, and
the subsequent load yields the default document — although bookmark `a` is
present in both the pre-save and the post-save documents, so the loaded state
is neither of them, contradicting the claim. -/
theorem claim_C1_save_silent_write_failure :
    save_bookmarks doc1 envSilentWriteFail ⟨.stored doc0, none⟩ = (true, ⟨.malformed, none⟩)
      ∧ load_bookmarks ⟨.malformed, none⟩ = defaultDoc
      ∧ bmLookup ⟨.stored doc0, none⟩ "a" = some (.jobj entryA)
      ∧ bmLookup ⟨.stored doc1, none⟩ "a" = some (.jobj entryA)
      ∧ bmLookup ⟨.malformed, none⟩ "a" = none :=
  ⟨rfl, rfl, rfl, rfl, rfl⟩

/-- Claim C2: `load()` returns the default document
`{version: "2.0", bookmarks: {}}` whenever the document file is absent,
cannot be opened, fails to parse, or lacks a `bookmarks` member of object
type; and it never surfaces an error — every load yields a document with a
`bookmarks` object. -/
theorem claim_C2_load_fail_open :
    (∀ tp, load_bookmarks ⟨.absent, tp⟩ = defaultDoc)
      ∧ (∀ tp, load_bookmarks ⟨.unreadable, tp⟩ = defaultDoc)
      ∧ (∀ tp, load_bookmarks ⟨.malformed, tp⟩ = defaultDoc)
      ∧ (∀ j tp, docWellFormed j = false → load_bookmarks ⟨.stored j, tp⟩ = defaultDoc)
      ∧ (∀ d, docWellFormed (load_bookmarks d) = true) := by
  refine ⟨fun tp => rfl, fun tp => rfl, fun tp => rfl, ?_, docWellFormed_load⟩
  intro j tp h
  have h2 : docWellFormed (jserialize j) = false := by
    rw [docWellFormed_serialize]
    exact h
  cases hj : jserialize j with
  | jobj top =>
    rw [hj] at h2
    simp only [load_bookmarks, hj]
    cases hb : alookup top "bookmarks" with
    | none => rfl
    | some v =>
      cases v with
      | jobj bms =>
        exfalso
        simp [docWellFormed, hb] at h2
      | jnull => rfl
      | jstr s => rfl
      | jint n => rfl
      | jfloat f => rfl
      | jbool b => rfl
      | jarr xs => rfl
  | jnull => simp only [load_bookmarks, hj]
  | jstr s => simp only [load_bookmarks, hj]
  | jint n => simp only [load_bookmarks, hj]
  | jfloat f => simp only [load_bookmarks, hj]
  | jbool b => simp only [load_bookmarks, hj]
  | jarr xs => simp only [load_bookmarks, hj]

/-- Witness for claim C2: a stored array (no `bookmarks` member) loads as the
default document. -/
theorem claim_C2_load_fail_open_w :
    load_bookmarks ⟨.stored (.jarr []), none⟩ = defaultDoc :=
  claim_C2_load_fail_open.2.2.2.1 (.jarr []) none rfl

/-- Claim C3 counterexample: the claim says a reused identifier always fails
`BookmarkAlreadyExists` for every path argument, existing or not.  But the
directory check runs first (line 209 before line 218): with identifier `a`
already stored and a nonexistent path, `create` fails `DIRECTORY_NOT_FOUND`,
not `BOOKMARK_ALREADY_EXISTS`. -/
theorem claim_C3_cx :
    bmLookup ⟨.stored doc0, none⟩ "a" = some (.jobj entryA)
      ∧ create_bookmark argsC3 fsGone t0 envOk ⟨.stored doc0, none⟩
        = some (.error "DIRECTORY_NOT_FOUND" "Directory not found or is not accessible",
            ⟨.stored doc0, none⟩)
      ∧ "DIRECTORY_NOT_FOUND" ≠ "BOOKMARK_ALREADY_EXISTS" :=
  ⟨rfl, rfl, by decide⟩

/-- Claim C3 (amended): for every identifier already present in the registry
and every path argument that currently resolves to an existing directory,
`create` fails with `BookmarkAlreadyExists` (regardless of whether the path
equals or differs from the stored one); when the path is not an existing
directory the `DirectoryNotFound` check fires first instead. -/
theorem claim_C3_already_exists_amended (args : FlValue) (xfs : ExtFS) (t : UTCTime)
    (env : SaveEnv) (d : Disk) (id p : String) (e : JValue)
    (hid : lookupString args "identifier" = some (.fstr id))
    (hp : lookupString args "path" = some (.fstr p))
    (hdir : xfs.node p = .dir)
    (hpresent : bmLookup d id = some e) :
    create_bookmark args xfs t env d = some (.error "BOOKMARK_ALREADY_EXISTS"
      ("Bookmark with identifier '" ++ id ++ "' already exists"), d) := by
  obtain ⟨top, hload, hbms⟩ := loaded_shape d
  simp only [bmLookup] at hpresent
  simp only [create_bookmark, hid, hp, hdir, hload, jIndex, hbms, Option.getD,
    jContains, hpresent, Option.isSome, if_true]

/-- Witness for the amended claim C3: reusing identifier `a` with the live
directory `/d` fails `BOOKMARK_ALREADY_EXISTS`. -/
theorem claim_C3_already_exists_amended_w :
    create_bookmark (.fmap [(.fstr "identifier", .fstr "a"), (.fstr "path", .fstr "/d")])
        fsD t0 envOk ⟨.stored doc0, none⟩
      = some (.error "BOOKMARK_ALREADY_EXISTS" "Bookmark with identifier 'a' already exists",
          ⟨.stored doc0, none⟩) :=
  claim_C3_already_exists_amended _ fsD t0 envOk _ "a" "/d" (.jobj entryA) rfl rfl rfl rfl

/-- Claim C4 counterexample: the claim says `create` fails `InvalidArgument`
whenever the identifier or path is the empty string.  The code performs no
emptiness check: with an empty identifier string and the live directory `/d`,
`create` succeeds and returns the empty identifier; and with an empty path
string it fails `DIRECTORY_NOT_FOUND`, not `INVALID_ARGUMENT`. -/
theorem claim_C4_cx :
    respOf (create_bookmark argsC4 fsD t0 envOk ⟨.stored doc0, none⟩)
        = some (.success (.fstr ""))
      ∧ create_bookmark (.fmap [(.fstr "identifier", .fstr "x"), (.fstr "path", .fstr "")])
          fsD t0 envOk ⟨.stored doc0, none⟩
        = some (.error "DIRECTORY_NOT_FOUND" "Directory not found or is not accessible",
            ⟨.stored doc0, none⟩) :=
  ⟨rfl, rfl⟩

/-- Claim C4 (amended): `create` fails with `InvalidArgument` exactly when the
`identifier` or `path` argument is absent or not a string — no emptiness check
is performed, so an empty identifier is accepted and an empty path falls
through to the directory check — and it fails with `DirectoryNotFound`
whenever both arguments are strings but the path is not currently an existing
directory (including when it names a regular file). -/
theorem claim_C4_invalid_args_amended (args : FlValue) (xfs : ExtFS) (t : UTCTime)
    (env : SaveEnv) (d : Disk) :
    ((∀ s, lookupString args "identifier" ≠ some (.fstr s)) →
      create_bookmark args xfs t env d
        = some (.error "INVALID_ARGUMENT" "identifier must be a string", d))
    ∧ (∀ id, lookupString args "identifier" = some (.fstr id) →
        (∀ s, lookupString args "path" ≠ some (.fstr s)) →
        create_bookmark args xfs t env d
          = some (.error "INVALID_ARGUMENT" "path must be a string", d))
    ∧ (∀ id p, lookupString args "identifier" = some (.fstr id) →
        lookupString args "path" = some (.fstr p) → xfs.node p ≠ .dir →
        create_bookmark args xfs t env d
          = some (.error "DIRECTORY_NOT_FOUND" "Directory not found or is not accessible",
              d)) := by
  refine ⟨?_, ?_, ?_⟩
  · intro h
    simp only [create_bookmark]
  · intro id hid h
    simp only [create_bookmark, hid]
  · intro id p hid hp hnd
    simp only [create_bookmark, hid, hp]
    rw [if_neg hnd]

/-- Witness for the amended claim C4: a call with no identifier argument at
all fails `INVALID_ARGUMENT`; a call whose path argument is an integer fails
`INVALID_ARGUMENT`; and a call naming a path that is a regular file fails
`DIRECTORY_NOT_FOUND`. -/
theorem claim_C4_invalid_args_amended_w :
    (create_bookmark (.fmap []) fsD t0 envOk ⟨.stored doc0, none⟩
        = some (.error "INVALID_ARGUMENT" "identifier must be a string", ⟨.stored doc0, none⟩))
      ∧ (create_bookmark (.fmap [(.fstr "identifier", .fstr "x"), (.fstr "path", .fint 3)])
            fsD t0 envOk ⟨.stored doc0, none⟩
          = some (.error "INVALID_ARGUMENT" "path must be a string", ⟨.stored doc0, none⟩))
      ∧ (create_bookmark (.fmap [(.fstr "identifier", .fstr "x"), (.fstr "path", .fstr "/f")])
            fsGone t0 envOk ⟨.stored doc0, none⟩
          = some (.error "DIRECTORY_NOT_FOUND" "Directory not found or is not accessible",
              ⟨.stored doc0, none⟩)) :=
  ⟨(claim_C4_invalid_args_amended (.fmap []) fsD t0 envOk ⟨.stored doc0, none⟩).1
      (fun s h => Option.noConfusion h),
    (claim_C4_invalid_args_amended _ fsD t0 envOk ⟨.stored doc0, none⟩).2.1 "x" rfl
      (fun s h => by simp [lookupString, lookupFl, flKeyIs] at h),
    (claim_C4_invalid_args_amended _ fsGone t0 envOk ⟨.stored doc0, none⟩).2.2 "x" "/f" rfl rfl
      (fun h => NodeKind.noConfusion h)⟩

theorem loadedBookmarks_stored (top bms : List (String × JValue)) (tp : Option StoreFile)
    (hb : alookup top "bookmarks" = some (.jobj bms)) :
    loadedBookmarks ⟨.stored (.jobj top), tp⟩ = jserializeObj bms := by
  unfold loadedBookmarks load_bookmarks
  simp [jserialize, alookup_jserializeObj, hb]

theorem metaOf_shape (m : Option FlValue) : ∃ mkv, metaOf m = .jobj mkv := by
  cases m with
  | none => exact ⟨[], rfl⟩
  | some mv => cases mv <;> exact ⟨_, rfl⟩

/-- Claim C5: for every identifier not present in the registry and every path
that is an existing directory, `create` succeeds returning the identifier, and
a subsequent `get` returns an entry whose path equals the given path and whose
`createdAt` matches the fixed UTC shape `YYYY-MM-DDTHH:MM:SSZ` (under the
field ranges `gmtime` produces for any realistic clock). -/
theorem claim_C5_create_get_roundtrip (args : FlValue) (xfs : ExtFS) (t : UTCTime)
    (env : SaveEnv) (d : Disk) (id p : String)
    (hid : lookupString args "identifier" = some (.fstr id))
    (hp : lookupString args "path" = some (.fstr p))
    (hdir : xfs.node p = .dir)
    (hfresh : bmLookup d id = none)
    (ho : env.openFail = false) (hw : env.writeFail = false) (hr : env.renameFail = false)
    (hy1 : 1000 ≤ t.year) (hy2 : t.year ≤ 9999) (hmo : t.month ≤ 99) (hda : t.day ≤ 99)
    (hho : t.hour ≤ 99) (hmi : t.minute ≤ 99) (hse : t.second ≤ 99) :
    ∃ d2 md, create_bookmark args xfs t env d = some (.success (.fstr id), d2)
      ∧ get_bookmark (gArgs id) d2 = some (.success (.fmap
          [(.fstr "identifier", .fstr id), (.fstr "path", .fstr p),
           (.fstr "createdAt", .fstr (get_iso8601_timestamp t)), (.fstr "metadata", md)]))
      ∧ iso8601Shape (get_iso8601_timestamp t) = true := by
  obtain ⟨top, hload, hcr⟩ := create_success args xfs t env d id p hid hp hdir hfresh ho hw hr
  obtain ⟨mkv, hmk⟩ := metaOf_shape (lookupString args "metadata")
  refine ⟨_, json_to_fl_value (.jobj (jserializeObj mkv)), hcr, ?_,
    iso8601Shape_timestamp t hy1 hy2 hmo hda hho hmi hse⟩
  have hbm : bmLookup ⟨.stored (.jobj (jobjInsert top "bookmarks"
        (.jobj (jobjInsert (loadedBookmarks d) id
          (mkBookmark id p (get_iso8601_timestamp t) (lookupString args "metadata")))))),
        none⟩ id
      = some (.jobj [("createdAt", .jstr (get_iso8601_timestamp t)), ("id", .jstr id),
          ("metadata", .jobj (jserializeObj mkv)), ("path", .jstr p)]) := by
    rw [bmLookup, loadedBookmarks_stored _ _ none (alookup_jobjInsert_self _ _ _),
      alookup_jserializeObj, alookup_jobjInsert_self, mkBookmark_shape, hmk,
      Option.map_some']
    simp only [jserialize, jserializeObj]
  exact get_bookmark_found _ id _ hbm id p (get_iso8601_timestamp t) (jserializeObj mkv)
    rfl rfl rfl rfl

/-- Witness for claim C5: creating `proj` at the live directory `/d` over an
absent store succeeds and round-trips through `get`. -/
theorem claim_C5_create_get_roundtrip_w :
    ∃ d2 md, create_bookmark argsC5 fsD t0 envOk ⟨.absent, none⟩
        = some (.success (.fstr "proj"), d2)
      ∧ get_bookmark (gArgs "proj") d2 = some (.success (.fmap
          [(.fstr "identifier", .fstr "proj"), (.fstr "path", .fstr "/d"),
           (.fstr "createdAt", .fstr (get_iso8601_timestamp t0)), (.fstr "metadata", md)]))
      ∧ iso8601Shape (get_iso8601_timestamp t0) = true :=
  claim_C5_create_get_roundtrip argsC5 fsD t0 envOk ⟨.absent, none⟩ "proj" "/d"
    rfl rfl rfl rfl rfl rfl rfl (by decide) (by decide) (by decide) (by decide)
    (by decide) (by decide) (by decide)

theorem update_success (args : FlValue) (env : SaveEnv) (d : Disk) (id : String)
    (mkvs : List (FlValue × FlValue)) (ekvs : List (String × JValue))
    (hid : lookupString args "identifier" = some (.fstr id))
    (hmeta : lookupString args "metadata" = some (.fmap mkvs))
    (hentry : bmLookup d id = some (.jobj ekvs))
    (ho : env.openFail = false) (hw : env.writeFail = false) (hr : env.renameFail = false) :
    ∃ top, load_bookmarks d = .jobj top ∧
      update_bookmark_metadata args env d = some (.success (.fbool true),
        ⟨.stored (.jobj (jobjInsert top "bookmarks"
          (.jobj (jobjInsert (loadedBookmarks d) id
            (.jobj (jobjInsert ekvs "metadata" (fl_value_to_json (.fmap mkvs)))))))),
          none⟩) := by
  obtain ⟨top, hload, hbms⟩ := loaded_shape d
  simp only [bmLookup] at hentry
  refine ⟨top, hload, ?_⟩
  simp only [update_bookmark_metadata, hid, hmeta, hload, jIndex, hbms, Option.getD,
    jContains, hentry, Option.isSome, jSet, save_bookmarks, ho, hw, hr]
  simp

/-- Claim C6 counterexample: the claim quantifies over every scalar-valued
mapping M, and a NaN double is a scalar (`isScalarFl` holds of it, matching
the claim's "float").  But `json::dump` serializes NaN/infinity doubles as
`null` (nlohmann), so after `updateMetadata("a", {x: NaN})` succeeds and
writes the document, the reload at the next `get("a")` parses that `null`
and `json_to_fl_value` skips the non-scalar member: the returned metadata
mapping is empty, so `lookupString md "x"` is `none` while `M` maps `x` to
the NaN double — the mappings differ at key `x`. -/
theorem claim_C6_cx :
    isScalarFl (.ffloat nanBits) = true
      ∧ update_bookmark_metadata argsNaN envOk ⟨.stored doc0, none⟩
        = some (.success (.fbool true), dNaN)
      ∧ get_bookmark (gArgs "a") dNaN = some (.success (.fmap
          [(.fstr "identifier", .fstr "a"), (.fstr "path", .fstr "/d"),
           (.fstr "createdAt", .fstr "2026-01-01T00:00:00Z"),
           (.fstr "metadata", .fmap [])]))
      ∧ lookupString (.fmap []) "x" = none
      ∧ alookup pairsNaN "x" = some (.ffloat nanBits) :=
  ⟨rfl, rfl, rfl, rfl, rfl⟩

/-- Claim C6 (amended): for every existing bookmark and every string-keyed
mapping M whose values are all scalars that survive JSON persistence
(strings, integers, booleans, and finite floats — NaN/infinity doubles are
serialized as `null` by `json::dump` and dropped on the way back),
`updateMetadata(id, M)` followed by `get(id)` yields a metadata mapping equal
to M as a mapping (the same value under every key lookup); the replacement is
wholesale, so keys of the previous metadata that are not in M are absent
afterwards. -/
theorem claim_C6_metadata_roundtrip_amended (args : FlValue) (env : SaveEnv) (d : Disk)
    (id : String) (pairs : List (String × FlValue)) (ekvs : List (String × JValue))
    (ids ps cs : String)
    (hid : lookupString args "identifier" = some (.fstr id))
    (hmeta : lookupString args "metadata"
      = some (.fmap (pairs.map (fun q => (.fstr q.1, q.2)))))
    (hnd : (pairs.map Prod.fst).Nodup)
    (hpers : ∀ q ∈ pairs, isPersistableScalar q.2 = true)
    (hentry : bmLookup d id = some (.jobj ekvs))
    (hids : alookup ekvs "id" = some (.jstr ids))
    (hps : alookup ekvs "path" = some (.jstr ps))
    (hcs : alookup ekvs "createdAt" = some (.jstr cs))
    (ho : env.openFail = false) (hw : env.writeFail = false) (hr : env.renameFail = false) :
    ∃ d2 md, update_bookmark_metadata args env d = some (.success (.fbool true), d2)
      ∧ get_bookmark (gArgs id) d2 = some (.success (.fmap
          [(.fstr "identifier", .fstr ids), (.fstr "path", .fstr ps),
           (.fstr "createdAt", .fstr cs), (.fstr "metadata", md)]))
      ∧ ∀ k, lookupString md k = alookup pairs k := by
  have hsc : ∀ q ∈ pairs, isScalarFl q.2 = true :=
    fun q hq => isPersistableScalar_scalar q.2 (hpers q hq)
  obtain ⟨top, hload, hupd⟩ := update_success args env d id _ ekvs hid hmeta hentry ho hw hr
  refine ⟨_, json_to_fl_value (fl_value_to_json
      (.fmap (pairs.map (fun q => (.fstr q.1, q.2))))), hupd, ?_,
    fun k => metadata_roundtrip pairs hnd hsc k⟩
  have hbm : bmLookup ⟨.stored (.jobj (jobjInsert top "bookmarks"
        (.jobj (jobjInsert (loadedBookmarks d) id
          (.jobj (jobjInsert ekvs "metadata" (fl_value_to_json
            (.fmap (pairs.map (fun q => (.fstr q.1, q.2))))))))))),
        none⟩ id
      = some (.jobj (jserializeObj (jobjInsert ekvs "metadata" (fl_value_to_json
          (.fmap (pairs.map (fun q => (.fstr q.1, q.2)))))))) := by
    rw [bmLookup, loadedBookmarks_stored _ _ none (alookup_jobjInsert_self _ _ _),
      alookup_jserializeObj, alookup_jobjInsert_self, Option.map_some']
    simp only [jserialize]
  refine get_bookmark_found _ id _ hbm ids ps cs _ ?_ ?_ ?_ ?_
  · rw [alookup_jserializeObj, alookup_jobjInsert_ne _ _ _ _ (by decide), hids]
    rfl
  · rw [alookup_jserializeObj, alookup_jobjInsert_ne _ _ _ _ (by decide), hps]
    rfl
  · rw [alookup_jserializeObj, alookup_jobjInsert_ne _ _ _ _ (by decide), hcs]
    rfl
  · rw [alookup_jserializeObj, alookup_jobjInsert_self, Option.map_some',
      jserialize_fljson_persistable pairs hpers]
    rfl

/-- Witness for the amended claim C6: replacing the metadata of bookmark `a`
with the persistable scalar mapping `{color: "blue", n: 3}` and reading it
back. -/
theorem claim_C6_metadata_roundtrip_amended_w :
    ∃ d2 md, update_bookmark_metadata argsC6 envOk ⟨.stored doc0, none⟩
        = some (.success (.fbool true), d2)
      ∧ get_bookmark (gArgs "a") d2 = some (.success (.fmap
          [(.fstr "identifier", .fstr "a"), (.fstr "path", .fstr "/d"),
           (.fstr "createdAt", .fstr "2026-01-01T00:00:00Z"), (.fstr "metadata", md)]))
      ∧ ∀ k, lookupString md k = alookup pairsC6 k :=
  claim_C6_metadata_roundtrip_amended argsC6 envOk ⟨.stored doc0, none⟩ "a" pairsC6 entryA
    "a" "/d" "2026-01-01T00:00:00Z" rfl rfl (by decide) (by decide) rfl rfl rfl rfl
    rfl rfl rfl

theorem lookupString_fnArgs_id (id fn : String) :
    lookupString (fnArgs id fn) "identifier" = some (.fstr id) := rfl

theorem lookupString_fnArgs_fn (id fn : String) :
    lookupString (fnArgs id fn) "fileName" = some (.fstr fn) := rfl

theorem lookupString_saveArgs_id (id fn : String) (bytes : List Nat) :
    lookupString (saveArgs id fn bytes) "identifier" = some (.fstr id) := rfl

theorem lookupString_saveArgs_fn (id fn : String) (bytes : List Nat) :
    lookupString (saveArgs id fn bytes) "fileName" = some (.fstr fn) := rfl

theorem lookupString_saveArgs_data (id fn : String) (bytes : List Nat) :
    lookupString (saveArgs id fn bytes) "data" = some (.fuint8list bytes) := rfl

theorem resolve_dead (id : String) (xfs : ExtFS) (d : Disk)
    (ekvs : List (String × JValue)) (p : String)
    (hentry : bmLookup d id = some (.jobj ekvs))
    (hpath : alookup ekvs "path" = some (.jstr p))
    (hdead : xfs.node p ≠ .dir) :
    get_bookmarked_path id xfs d = some .notFound := by
  obtain ⟨top, hload, hbms⟩ := loaded_shape d
  simp only [bmLookup] at hentry
  simp only [get_bookmarked_path, hload, jIndex, hbms, Option.getD, jContains, hentry,
    Option.isSome, hpath, jGetString, if_true]
  rw [if_neg hdead]

theorem resolve_live (id : String) (xfs : ExtFS) (d : Disk)
    (ekvs : List (String × JValue)) (p : String)
    (hentry : bmLookup d id = some (.jobj ekvs))
    (hpath : alookup ekvs "path" = some (.jstr p))
    (hlive : xfs.node p = .dir) :
    get_bookmarked_path id xfs d = some (.found p) := by
  obtain ⟨top, hload, hbms⟩ := loaded_shape d
  simp only [bmLookup] at hentry
  simp only [get_bookmarked_path, hload, jIndex, hbms, Option.getD, jContains, hentry,
    Option.isSome, hpath, jGetString, if_true, hlive, if_pos]

/-- Claim C7: for every bookmark whose stored path is not an existing
directory at call time, `saveFile`, `readFile`, `listFiles` and `deleteFile`
fail with `BOOKMARK_NOT_FOUND`, and `fileExists` and `hasWritePermission`
return false, via the liveness re-check performed on every resolution; the
registry entry remains in the document (none of these operations writes the
registry), and nothing is cached — with a filesystem in which the path is a
directory again, the same resolution succeeds. -/
theorem claim_C7_liveness_recheck (xfs : ExtFS) (d : Disk) (id fn : String)
    (bytes : List Nat) (ekvs : List (String × JValue)) (p : String)
    (hentry : bmLookup d id = some (.jobj ekvs))
    (hpath : alookup ekvs "path" = some (.jstr p))
    (hdead : xfs.node p ≠ .dir) :
    save_file (saveArgs id fn bytes) xfs d
        = some (.error "BOOKMARK_NOT_FOUND" ("Bookmark with identifier '" ++ id ++ "' not found"))
      ∧ read_file (fnArgs id fn) xfs d
        = some (.error "BOOKMARK_NOT_FOUND" ("Bookmark with identifier '" ++ id ++ "' not found"))
      ∧ list_files (gArgs id) xfs d
        = some (.error "BOOKMARK_NOT_FOUND" ("Bookmark with identifier '" ++ id ++ "' not found"))
      ∧ delete_file (fnArgs id fn) xfs d
        = some (.error "BOOKMARK_NOT_FOUND" ("Bookmark with identifier '" ++ id ++ "' not found"))
      ∧ file_exists (fnArgs id fn) xfs d = some (.success (.fbool false))
      ∧ has_write_permission (gArgs id) xfs d = some (.success (.fbool false))
      ∧ bmLookup d id = some (.jobj ekvs)
      ∧ (∀ xfs2 : ExtFS, xfs2.node p = .dir →
          get_bookmarked_path id xfs2 d = some (.found p)) := by
  have hres := resolve_dead id xfs d ekvs p hentry hpath hdead
  refine ⟨?_, ?_, ?_, ?_, ?_, ?_, hentry,
    fun xfs2 h2 => resolve_live id xfs2 d ekvs p hentry hpath h2⟩
  · simp only [save_file, lookupString_saveArgs_id, lookupString_saveArgs_fn,
      lookupString_saveArgs_data, hres]
  · simp only [read_file, lookupString_fnArgs_id, lookupString_fnArgs_fn, hres]
  · simp only [list_files, lookupString_gArgs, hres]
  · simp only [delete_file, lookupString_fnArgs_id, lookupString_fnArgs_fn, hres]
  · simp only [file_exists, lookupString_fnArgs_id, lookupString_fnArgs_fn, hres]
  · simp only [has_write_permission, lookupString_gArgs, hres]

/-- Witness for claim C7: after the directory `/d` of bookmark `a` disappears,
every file operation fails and the entry is still stored. -/
theorem claim_C7_liveness_recheck_w :
    save_file (saveArgs "a" "f.txt" [104, 105]) fsGone ⟨.stored doc0, none⟩
        = some (.error "BOOKMARK_NOT_FOUND" "Bookmark with identifier 'a' not found")
      ∧ read_file (fnArgs "a" "f.txt") fsGone ⟨.stored doc0, none⟩
        = some (.error "BOOKMARK_NOT_FOUND" "Bookmark with identifier 'a' not found")
      ∧ list_files (gArgs "a") fsGone ⟨.stored doc0, none⟩
        = some (.error "BOOKMARK_NOT_FOUND" "Bookmark with identifier 'a' not found")
      ∧ delete_file (fnArgs "a" "f.txt") fsGone ⟨.stored doc0, none⟩
        = some (.error "BOOKMARK_NOT_FOUND" "Bookmark with identifier 'a' not found")
      ∧ file_exists (fnArgs "a" "f.txt") fsGone ⟨.stored doc0, none⟩
        = some (.success (.fbool false))
      ∧ has_write_permission (gArgs "a") fsGone ⟨.stored doc0, none⟩
        = some (.success (.fbool false))
      ∧ bmLookup ⟨.stored doc0, none⟩ "a" = some (.jobj entryA)
      ∧ (∀ xfs2 : ExtFS, xfs2.node "/d" = .dir →
          get_bookmarked_path "a" xfs2 ⟨.stored doc0, none⟩ = some (.found "/d")) :=
  claim_C7_liveness_recheck fsGone ⟨.stored doc0, none⟩ "a" "f.txt" [104, 105] entryA "/d"
    rfl rfl (by decide)

theorem visibleFile_some (e : DirEnt) (n : String) (h : visibleFile e = some n) :
    e.kind = .file ∧ e.name = n ∧ ∀ c cs, n.data = c :: cs → c ≠ '.' := by
  unfold visibleFile at h
  split at h
  · rename_i hk
    split at h
    · exact Option.noConfusion h
    · rename_i c cs hdata
      split at h
      · exact Option.noConfusion h
      · rename_i hc
        have hn : e.name = n := by injection h
        subst hn
        refine ⟨hk, rfl, ?_⟩
        intro c2 cs2 hd2
        rw [hdata] at hd2
        injection hd2 with h1 h2
        rw [← h1]
        exact hc
  · exact Option.noConfusion h

/-- Claim C8: for every resolvable bookmark, the sequence returned by
`listFiles` contains only names of regular files directly inside the resolved
directory, and never contains a name beginning with `.` nor the name of a
subdirectory, even when such entries exist in the directory. -/
theorem claim_C8_list_files_filter (xfs : ExtFS) (d : Disk) (id : String)
    (ekvs : List (String × JValue)) (p : String)
    (hentry : bmLookup d id = some (.jobj ekvs))
    (hpath : alookup ekvs "path" = some (.jstr p))
    (hlive : xfs.node p = .dir)
    (hlf : xfs.listFail p = false)
    (hnames : ((xfs.entries p).map DirEnt.name).Nodup) :
    ∃ names : List String,
      list_files (gArgs id) xfs d = some (.success (.flist (names.map FlValue.fstr)))
      ∧ (∀ n ∈ names, (∃ e ∈ xfs.entries p, e.name = n ∧ e.kind = .file)
          ∧ ∀ c cs, n.data = c :: cs → c ≠ '.')
      ∧ (∀ e ∈ xfs.entries p, e.kind = .dir → e.name ∉ names) := by
  have hres := resolve_live id xfs d ekvs p hentry hpath hlive
  refine ⟨(xfs.entries p).filterMap visibleFile, ?_, ?_, ?_⟩
  · simp only [list_files, lookupString_gArgs, hres, hlf, Bool.false_eq_true, if_false]
  · intro n hn
    obtain ⟨e, he, hv⟩ := List.mem_filterMap.mp hn
    obtain ⟨hk, hname, hdot⟩ := visibleFile_some e n hv
    exact ⟨⟨e, he, hname, hk⟩, hdot⟩
  · intro e he hk hmem
    obtain ⟨e2, he2, hv2⟩ := List.mem_filterMap.mp hmem
    obtain ⟨hk2, hname2, _⟩ := visibleFile_some e2 e.name hv2
    have : e2 = e := List.inj_on_of_nodup_map hnames he2 he hname2
    rw [this] at hk2
    rw [hk] at hk2
    exact NodeKind.noConfusion hk2

/-- Witness for claim C8: in a directory holding `a.txt`, the hidden file
`.hidden` and the subdirectory `sub`, only `a.txt` is listed. -/
theorem claim_C8_list_files_filter_w :
    ∃ names : List String,
      list_files (gArgs "a") fsD ⟨.stored doc0, none⟩
        = some (.success (.flist (names.map FlValue.fstr)))
      ∧ (∀ n ∈ names, (∃ e ∈ fsD.entries "/d", e.name = n ∧ e.kind = .file)
          ∧ ∀ c cs, n.data = c :: cs → c ≠ '.')
      ∧ (∀ e ∈ fsD.entries "/d", e.kind = .dir → e.name ∉ names) :=
  claim_C8_list_files_filter fsD ⟨.stored doc0, none⟩ "a" entryA "/d"
    rfl rfl rfl rfl (by decide)

theorem metaOf_nonmap (mv : FlValue) (h : ∀ kvs, mv ≠ .fmap kvs) :
    metaOf (some mv) = .jobj [] := by
  cases mv with
  | fmap kvs => exact absurd rfl (h kvs)
  | fnull => rfl
  | fstr s => rfl
  | fint n => rfl
  | ffloat f => rfl
  | fbool b => rfl
  | fuint8list bs => rfl
  | flist xs => rfl

/-- Claim C10: when `create` is given a `metadata` argument that is present
but not a map (for example a string, number, or list), it does not fail with
`InvalidArgument`: the argument is silently ignored, the bookmark is stored
with empty metadata `{}`, and `get` returns an empty metadata map. -/
theorem claim_C10_nonmap_metadata_ignored (args : FlValue) (xfs : ExtFS) (t : UTCTime)
    (env : SaveEnv) (d : Disk) (id p : String) (mv : FlValue)
    (hid : lookupString args "identifier" = some (.fstr id))
    (hp : lookupString args "path" = some (.fstr p))
    (hmv : lookupString args "metadata" = some mv)
    (hnotmap : ∀ kvs, mv ≠ .fmap kvs)
    (hdir : xfs.node p = .dir)
    (hfresh : bmLookup d id = none)
    (ho : env.openFail = false) (hw : env.writeFail = false) (hr : env.renameFail = false) :
    ∃ d2, create_bookmark args xfs t env d = some (.success (.fstr id), d2)
      ∧ bmLookup d2 id = some (.jobj [("createdAt", .jstr (get_iso8601_timestamp t)),
          ("id", .jstr id), ("metadata", .jobj []), ("path", .jstr p)])
      ∧ get_bookmark (gArgs id) d2 = some (.success (.fmap
          [(.fstr "identifier", .fstr id), (.fstr "path", .fstr p),
           (.fstr "createdAt", .fstr (get_iso8601_timestamp t)),
           (.fstr "metadata", .fmap [])])) := by
  obtain ⟨top, hload, hcr⟩ := create_success args xfs t env d id p hid hp hdir hfresh ho hw hr
  refine ⟨_, hcr, ?_, ?_⟩
  · rw [bmLookup, loadedBookmarks_stored _ _ none (alookup_jobjInsert_self _ _ _),
      alookup_jserializeObj, alookup_jobjInsert_self, mkBookmark_shape, hmv,
      metaOf_nonmap mv hnotmap]
    rfl
  · have hbm : bmLookup ⟨.stored (.jobj (jobjInsert top "bookmarks"
        (.jobj (jobjInsert (loadedBookmarks d) id
          (mkBookmark id p (get_iso8601_timestamp t) (lookupString args "metadata")))))),
        none⟩ id
      = some (.jobj [("createdAt", .jstr (get_iso8601_timestamp t)), ("id", .jstr id),
          ("metadata", .jobj []), ("path", .jstr p)]) := by
      rw [bmLookup, loadedBookmarks_stored _ _ none (alookup_jobjInsert_self _ _ _),
        alookup_jserializeObj, alookup_jobjInsert_self, mkBookmark_shape, hmv,
        metaOf_nonmap mv hnotmap]
      rfl
    exact get_bookmark_found _ id _ hbm id p (get_iso8601_timestamp t) [] rfl rfl rfl rfl

/-- Witness for claim C10: creating `n2` at `/d` with the string metadata
argument `oops` succeeds and stores empty metadata. -/
theorem claim_C10_nonmap_metadata_ignored_w :
    ∃ d2, create_bookmark argsC10 fsD t0 envOk ⟨.stored doc0, none⟩
        = some (.success (.fstr "n2"), d2)
      ∧ bmLookup d2 "n2" = some (.jobj [("createdAt", .jstr (get_iso8601_timestamp t0)),
          ("id", .jstr "n2"), ("metadata", .jobj []), ("path", .jstr "/d")])
      ∧ get_bookmark (gArgs "n2") d2 = some (.success (.fmap
          [(.fstr "identifier", .fstr "n2"), (.fstr "path", .fstr "/d"),
           (.fstr "createdAt", .fstr (get_iso8601_timestamp t0)),
           (.fstr "metadata", .fmap [])])) :=
  claim_C10_nonmap_metadata_ignored argsC10 fsD t0 envOk ⟨.stored doc0, none⟩ "n2" "/d"
    (.fstr "oops") rfl rfl rfl (fun _ h => FlValue.noConfusion h) rfl rfl rfl rfl rfl

theorem save_cases (doc : JValue) (env : SaveEnv) (d : Disk) (hw : env.writeFail = false) :
    (save_bookmarks doc env d).2 = d
      ∨ (save_bookmarks doc env d).2 = ⟨d.main, none⟩
      ∨ (save_bookmarks doc env d).2 = ⟨.stored doc, none⟩ := by
  unfold save_bookmarks
  by_cases ho : env.openFail
  · simp [ho]
  · by_cases hrn : env.renameFail
    · simp [ho, hrn]
    · simp [ho, hrn, hw]

theorem bmLookup_temp_erased (d : Disk) (k : String) :
    bmLookup ⟨d.main, none⟩ k = bmLookup d k := rfl

theorem bmLookup_save_frame (doc : JValue) (top newBms : List (String × JValue))
    (env : SaveEnv) (d : Disk) (k : String)
    (hdoc : doc = .jobj (jobjInsert top "bookmarks" (.jobj newBms)))
    (hw : env.writeFail = false)
    (halo : alookup newBms k = bmLookup d k) :
    bmLookup (save_bookmarks doc env d).2 k = bmLookup d k := by
  rcases save_cases doc env d hw with h | h | h <;> rw [h]
  · exact bmLookup_temp_erased d k
  · rw [hdoc, bmLookup, loadedBookmarks_stored _ _ none (alookup_jobjInsert_self _ _ _),
      alookup_jserializeObj, halo]
    exact bmLookup_serialize_fixed d k

/-- Claim C9: every mutating registry operation (`create`, `delete`,
`updateMetadata`) on an identifier leaves the entry stored under every other
identifier unchanged in the persisted document: each operation loads the full
document, modifies only the entry keyed by its identifier, and saves the whole
document back.  Stated for saves without the silent-write I/O corruption
recorded as C1's code bug; a failed open or rename leaves the document file
unchanged, which also preserves the frame. -/
theorem claim_C9_mutation_frame (args : FlValue) (xfs : ExtFS) (t : UTCTime)
    (env : SaveEnv) (d : Disk) (id : String)
    (hid : lookupString args "identifier" = some (.fstr id))
    (hw : env.writeFail = false) :
    (∀ r d2, create_bookmark args xfs t env d = some (r, d2) →
      ∀ k, k ≠ id → bmLookup d2 k = bmLookup d k)
    ∧ (∀ r d2, delete_bookmark args env d = some (r, d2) →
      ∀ k, k ≠ id → bmLookup d2 k = bmLookup d k)
    ∧ (∀ r d2, update_bookmark_metadata args env d = some (r, d2) →
      ∀ k, k ≠ id → bmLookup d2 k = bmLookup d k) := by
  obtain ⟨top, hload, hbms⟩ := loaded_shape d
  refine ⟨?_, ?_, ?_⟩
  · intro r d2 hcd k hk
    simp only [create_bookmark, hid, hload, jIndex, hbms, Option.getD, jSet,
      jContains] at hcd
    split at hcd
    · split at hcd
      · split at hcd
        · simp only [Option.some.injEq, Prod.mk.injEq] at hcd
          rw [← hcd.2]
        · split at hcd
          · simp only [Option.some.injEq, Prod.mk.injEq] at hcd
            rw [← hcd.2]
            exact bmLookup_save_frame _ top _ env d k rfl hw
              ((alookup_jobjInsert_ne _ _ _ _ hk).trans rfl)
          · simp only [Option.some.injEq, Prod.mk.injEq] at hcd
            rw [← hcd.2]
            exact bmLookup_save_frame _ top _ env d k rfl hw
              ((alookup_jobjInsert_ne _ _ _ _ hk).trans rfl)
      · simp only [Option.some.injEq, Prod.mk.injEq] at hcd
        rw [← hcd.2]
    · simp only [Option.some.injEq, Prod.mk.injEq] at hcd
      rw [← hcd.2]
  · intro r d2 hcd k hk
    simp only [delete_bookmark, hid, hload, jIndex, hbms, Option.getD, jErase, jSet,
      jContains] at hcd
    split at hcd
    · split at hcd
      · simp only [Option.some.injEq, Prod.mk.injEq] at hcd
        rw [← hcd.2]
        exact bmLookup_save_frame _ top _ env d k rfl hw
          ((alookup_eraseP_ne _ _ _ hk).trans rfl)
      · simp only [Option.some.injEq, Prod.mk.injEq] at hcd
        rw [← hcd.2]
        exact bmLookup_save_frame _ top _ env d k rfl hw
          ((alookup_eraseP_ne _ _ _ hk).trans rfl)
    · simp only [Option.some.injEq, Prod.mk.injEq] at hcd
      rw [← hcd.2]
  · intro r d2 hcd k hk
    simp only [update_bookmark_metadata, hid, hload, jIndex, hbms, Option.getD, jSet,
      jContains] at hcd
    split at hcd
    · split at hcd
      · split at hcd
        · split at hcd
          · simp only [Option.some.injEq, Prod.mk.injEq] at hcd
            rw [← hcd.2]
            exact bmLookup_save_frame _ top _ env d k rfl hw
              ((alookup_jobjInsert_ne _ _ _ _ hk).trans rfl)
          · simp only [Option.some.injEq, Prod.mk.injEq] at hcd
            rw [← hcd.2]
            exact bmLookup_save_frame _ top _ env d k rfl hw
              ((alookup_jobjInsert_ne _ _ _ _ hk).trans rfl)
        · exact Option.noConfusion hcd
      · simp only [Option.some.injEq, Prod.mk.injEq] at hcd
        rw [← hcd.2]
    · simp only [Option.some.injEq, Prod.mk.injEq] at hcd
      rw [← hcd.2]

/-- Witness for claim C9: deleting bookmark `a` from a document holding `a`
and `b` leaves the entry stored under `b` unchanged. -/
theorem claim_C9_mutation_frame_w :
    bmLookup ⟨.stored (.jobj [("bookmarks", .jobj
        [("b", .jobj [("createdAt", .jstr "2026-01-02T00:00:00Z"), ("id", .jstr "b"),
          ("metadata", .jobj []), ("path", .jstr "/d")])]),
        ("version", .jstr "2.0")]), none⟩ "b"
      = bmLookup ⟨.stored doc1, none⟩ "b" :=
  (claim_C9_mutation_frame (.fmap [(.fstr "identifier", .fstr "a"), (.fstr "path", .fstr "/d")])
      fsD t0 envOk ⟨.stored doc1, none⟩ "a" rfl rfl).2.1
    (.success (.fbool true)) _ rfl "b" (by decide)
